import Mathlib

/-!
# Bitmap index access method: verification of the public interface routines

A shallow embedding of `src/src/bitmap.c` (the public interface routines of the
on-disk bitmap index), of `src/src/bitmapattutil.c` (the list-of-values heap and
index) and of parts of `src/yabit.c` (the handler and its helpers), and the
properties proved about them.

Conventions of the embedding:

* routines of other translation units (`_bitmap_first`, `_bitmap_next`,
  `_bitmap_init`, ...) and of the host system (`tbm_add_tuples`, `PageInit`,
  `ReleaseBuffer`, ...) are either parameters of the embedded function or
  small models of their documented behaviour;
* C pointers are addresses into explicit heaps, `NULL` is `none`;
* a C fault (null pointer dereference, read of uninitialised memory, access
  outside an allocation) is an explicit `Except` error;
* `ereport(ERROR, ...)` / `elog(ERROR, ...)` is an explicit `Except` error too.
-/

namespace Bitmap

/-! ## Section 1: `bmgetbitmap_internal` -/

/-- Two's complement wrap-around of a 64-bit signed integer (the host is built
with wrapping signed arithmetic). -/
def wrapInt64 (x : Int) : Int := (x + 2 ^ 63) % 2 ^ 64 - 2 ^ 63

/-- The collaborators of `bmgetbitmap_internal`: the scan descriptor type `σ`,
the heap TID type `τ`, the two step functions (each returns its boolean result
and the updated scan) and the `xs_heaptid` member of the scan descriptor. -/
structure ScanSteps (σ τ : Type) where
  /-- The routine `_bitmap_first(scan, ForwardScanDirection)`. -/
  _bitmap_first : σ → Bool × σ
  /-- The routine `_bitmap_next(scan, ForwardScanDirection)`. -/
  _bitmap_next : σ → Bool × σ
  /-- The member `scan->xs_heaptid`. -/
  xs_heaptid : σ → τ

/-- The call `tbm_add_tuples(tbm, tid, 1, false)`: the TID bitmap is represented by
the sequence of TIDs added to it, oldest first. -/
def tbm_add_tuples {τ : Type} (tbm : List τ) (tid : τ) : List τ := tbm ++ [tid]

/-- The result of `bmgetbitmap_internal`: the returned count, the TID bitmap and
the scan descriptor as the routine leaves them. -/
structure GetBitmapResult (σ τ : Type) where
  ntids : Int
  tbm : List τ
  scan : σ

/-- The loop `while (_bitmap_next(scan, ForwardScanDirection)) { ... }` of
`bmgetbitmap_internal` (bitmap.c:245-250). The fuel bounds the number of calls
of `_bitmap_next`; `none` means the fuel ran out. -/
def bmgetbitmap_loop {σ τ : Type} (E : ScanSteps σ τ) :
    Nat → σ → List τ → Int → Option (GetBitmapResult σ τ)
  | 0, _, _, _ => none
  | fuel + 1, scan, tbm, ntids =>
    match E._bitmap_next scan with
    | (true, scan1) =>
      bmgetbitmap_loop E fuel scan1 (tbm_add_tuples tbm (E.xs_heaptid scan1))
        (wrapInt64 (ntids + 1))
    | (false, scan1) => some ⟨ntids, tbm, scan1⟩

/-- The routine `bmgetbitmap_internal(scan, tbm)` (bitmap.c:226-254). -/
def bmgetbitmap_internal {σ τ : Type} (E : ScanSteps σ τ) (fuel : Nat) (scan : σ)
    (tbm : List τ) : Option (GetBitmapResult σ τ) :=
  match E._bitmap_first scan with
  | (false, scan1) => some ⟨0, tbm, scan1⟩
  | (true, scan1) =>
    bmgetbitmap_loop E fuel scan1 (tbm_add_tuples tbm (E.xs_heaptid scan1)) (wrapInt64 (0 + 1))

/-! ### The bulk producer as the spec words it

"equivalent to repeated `next` until `EXHAUSTED`": the scan after `i` calls of
`next`, the first call that reports exhaustion, and the RIDs produced. -/

/-- The scan after `i` successive calls of `next`, starting from `s`. -/
def afterNext {σ τ : Type} (E : ScanSteps σ τ) : Nat → σ → σ
  | 0, s => s
  | i + 1, s => (E._bitmap_next (afterNext E i s)).2

/-- The first `k` calls of `next` (from `s`) each produce a RID and call `k + 1`
is the first one that reports exhaustion. -/
def exhaustedAtCall {σ τ : Type} (E : ScanSteps σ τ) (s : σ) (k : Nat) : Prop :=
  (∀ i, i < k → (E._bitmap_next (afterNext E i s)).1 = true) ∧
    (E._bitmap_next (afterNext E k s)).1 = false

instance {σ τ : Type} (E : ScanSteps σ τ) (s : σ) (k : Nat) :
    Decidable (exhaustedAtCall E s k) := by
  unfold exhaustedAtCall; infer_instance

/-- The bulk producer `produce_all() -> sequence of RID` as the spec words it: the RIDs
produced by one `first` (which left the scan at `s`) followed by `k` successful calls
of `next`, in the order produced. -/
def produce_all {σ τ : Type} (E : ScanSteps σ τ) (s : σ) (k : Nat) : List τ :=
  (List.range (k + 1)).map (fun i => E.xs_heaptid (afterNext E i s))

/-- A scan over one bitmap vector given by the ascending list of its set bits:
the RIDs still to produce and the RID last produced (`xs_heaptid`). -/
structure VectorScan where
  pending : List Nat
  xs_heaptid : Nat
  deriving DecidableEq, Repr

/-- Step function of `VectorScan`: produce the next set bit, if any. -/
def VectorScan.step (s : VectorScan) : Bool × VectorScan :=
  match s.pending with
  | [] => (false, s)
  | rid :: rest => (true, ⟨rest, rid⟩)

/-- The step functions of a scan over one bitmap vector. -/
def vectorScanSteps : ScanSteps VectorScan Nat :=
  ⟨VectorScan.step, VectorScan.step, VectorScan.xs_heaptid⟩

/-! ## Section 2: `bmbuild_internal` -/

/-- An effectful routine: it runs in a world `W`, may raise an error of type `ε`
(the world it leaves behind is kept) and otherwise returns an `α`. -/
abbrev Eff (ε W α : Type) : Type := ExceptT ε (StateM W) α

/-- Run an effectful routine in the world `w`. -/
def Eff.exec {ε W α : Type} (x : Eff ε W α) (w : W) : Except ε α × W := (x.run).run w

/-- The members of `BMBuildState` that `bitmap.c` reads; the remaining members
are `other`. The tuple counter is a C `double` used as a counter. -/
structure BMBuildState (ρ β : Type) where
  bm_lov_heap : ρ
  bm_lov_index : ρ
  ituples : Nat
  other : β

/-- The struct `IndexBuildResult`. -/
structure IndexBuildResult where
  heap_tuples : Nat
  index_tuples : Nat
  deriving DecidableEq, Repr

/-- The errors `bmbuild_internal` can end with: its own
`ereport(ERROR, ... "index already contains data")`, or an error raised inside one
of the routines it calls. -/
inductive BuildError (ε : Type) where
  | index_already_contains_data
  | callee (e : ε)
  deriving DecidableEq, Repr

/-- The routines `bmbuild_internal` calls, over a world `W`, relations `ρ` and heap
rows `Row`. -/
structure BuildEnv (W ρ β Row ε : Type) where
  RelationGetNumberOfBlocks : ρ → W → Nat
  XLogArchivingActive : W → Bool
  rd_islocaltemp : ρ → W → Bool
  rd_smgr : ρ → ρ
  _bitmap_init : ρ → Bool → Eff ε W Unit
  _bitmap_init_buildstate : ρ → Eff ε W (BMBuildState ρ β)
  _bitmap_buildinsert : ρ → Row → BMBuildState ρ β → Eff ε W (BMBuildState ρ β)
  _bitmap_cleanup_buildstate : ρ → BMBuildState ρ β → Eff ε W (BMBuildState ρ β)
  /-- The host routine that scans the heap and calls the callback on each row; it
  returns the number of heap tuples and the callback state. -/
  table_index_build_scan : ρ → ρ →
    (Row → BMBuildState ρ β → Eff ε W (BMBuildState ρ β)) → BMBuildState ρ β →
    Eff ε W (Nat × BMBuildState ρ β)
  FlushRelationBuffers : ρ → Eff ε W Unit
  smgrimmedsync : ρ → Eff ε W Unit

/-- The per-tuple callback `bmbuildCallback` (bitmap.c:550-566). -/
def bmbuildCallback {W ρ β Row ε : Type} (env : BuildEnv W ρ β Row ε) (index : ρ)
    (row : Row) (bstate : BMBuildState ρ β) : Eff ε W (BMBuildState ρ β) := do
  let bstate1 ← env._bitmap_buildinsert index row bstate
  pure { bstate1 with ituples := bstate1.ituples + 1 }

/-- The part of `bmbuild_internal` after the emptiness check (bitmap.c:58-95). -/
def bmbuild_after_check {W ρ β Row ε : Type} (env : BuildEnv W ρ β Row ε)
    (heap index : ρ) : Eff ε W IndexBuildResult := do
  /- initialize bitmap index meta page -/
  let w0 ← get
  env._bitmap_init index (env.XLogArchivingActive w0 && !env.rd_islocaltemp index w0)
  /- init build state -/
  let bmstate0 ← env._bitmap_init_buildstate index
  let (reltuples, bmstate1) ←
    env.table_index_build_scan heap index (bmbuildCallback env index) bmstate0
  /- cleanup build state -/
  let bmstate ← env._bitmap_cleanup_buildstate index bmstate1
  /- fsync unless building a local temp index -/
  let w1 ← get
  if !(env.XLogArchivingActive w1 && !env.rd_islocaltemp index w1) then
    env.FlushRelationBuffers bmstate.bm_lov_heap
    env.smgrimmedsync (env.rd_smgr bmstate.bm_lov_heap)
    env.FlushRelationBuffers bmstate.bm_lov_index
    env.smgrimmedsync (env.rd_smgr bmstate.bm_lov_index)
    env.FlushRelationBuffers index
    env.smgrimmedsync (env.rd_smgr index)
  /- return stats -/
  pure { heap_tuples := reltuples, index_tuples := bmstate.ituples }

/-- The routine `bmbuild_internal(heap, index, indexInfo)` (bitmap.c:44-96): the
outcome and the world it leaves. -/
def bmbuild_internal {W ρ β Row ε : Type} (env : BuildEnv W ρ β Row ε)
    (heap index : ρ) (w : W) : Except (BuildError ε) IndexBuildResult × W :=
  /- Index must be empty when build starts -/
  if env.RelationGetNumberOfBlocks index w ≠ 0 then
    (Except.error BuildError.index_already_contains_data, w)
  else
    match (bmbuild_after_check env heap index).exec w with
    | (Except.error e, w1) => (Except.error (BuildError.callee e), w1)
    | (Except.ok result, w1) => (Except.ok result, w1)

/-- The calls a build makes that change the index or read the heap. -/
inductive BuildEvent where
  | bitmap_init (use_wal : Bool)
  | bitmap_init_buildstate
  | bitmap_buildinsert (row : Nat)
  | bitmap_cleanup_buildstate
  | FlushRelationBuffers (rel : String)
  | smgrimmedsync (rel : String)
  deriving DecidableEq, Repr

/-- A world that records what a build did: the block count of the index, the heap
rows and the calls made so far (oldest first). -/
structure TraceWorld where
  nblocks : Nat
  heapRows : List Nat
  events : List BuildEvent
  deriving DecidableEq, Repr

/-- Append an event to the trace. -/
def TraceWorld.log (e : BuildEvent) : Eff String TraceWorld Unit :=
  modify (fun w => { w with events := w.events ++ [e] })

/-- Call the callback on each row in turn. -/
def scanRows {ε W S : Type} (callback : Nat → S → Eff ε W S) : List Nat → S → Eff ε W S
  | [], st => pure st
  | row :: rows, st => do
    let st1 ← callback row st
    scanRows callback rows st1

/-- The build routines instantiated on `TraceWorld`: each callee records its call;
`_bitmap_init` creates the meta page and the first LOV page. -/
def traceEnv : BuildEnv TraceWorld String Unit Nat String where
  RelationGetNumberOfBlocks := fun _ w => w.nblocks
  XLogArchivingActive := fun _ => false
  rd_islocaltemp := fun _ _ => false
  rd_smgr := fun r => r
  _bitmap_init := fun _ use_wal => do
    TraceWorld.log (BuildEvent.bitmap_init use_wal)
    modify (fun w => { w with nblocks := 2 })
  _bitmap_init_buildstate := fun _ => do
    TraceWorld.log BuildEvent.bitmap_init_buildstate
    pure ⟨"lov_heap", "lov_index", 0, ()⟩
  _bitmap_buildinsert := fun _ row st => do
    TraceWorld.log (BuildEvent.bitmap_buildinsert row)
    pure st
  _bitmap_cleanup_buildstate := fun _ st => do
    TraceWorld.log BuildEvent.bitmap_cleanup_buildstate
    pure st
  table_index_build_scan := fun _ _ callback st => do
    let w ← get
    let st1 ← scanRows callback w.heapRows st
    pure (w.heapRows.length, st1)
  FlushRelationBuffers := fun r => TraceWorld.log (BuildEvent.FlushRelationBuffers r)
  smgrimmedsync := fun r => TraceWorld.log (BuildEvent.smgrimmedsync r)

/-! ## Section 3: `bmbuildempty_internal` -/

/-- The host constant `BLCKSZ`. -/
def BLCKSZ : Nat := 8192

/-- The host constant `SizeOfPageHeaderData`. -/
def SizeOfPageHeaderData : Nat := 24

/-- The size of a line pointer, `sizeof(ItemIdData)`. -/
def sizeofItemIdData : Nat := 4

/-- The host macro `MAXALIGN` (alignment to 8 bytes). -/
def MAXALIGN (len : Nat) : Nat := (len + 7) / 8 * 8

/-- The host constant `InvalidOid`. -/
def InvalidOid : Nat := 0

/-- The host constant `InvalidBlockNumber`. -/
def InvalidBlockNumber : Nat := 0xFFFFFFFF

/-- The host constant `InvalidOffsetNumber`. -/
def InvalidOffsetNumber : Nat := 0

/-- Modelled from the spec: the constant `BM_METAPAGE` of `bitmap.h`, a header that is
not among the sources. The spec has the meta page as the "singleton page (fixed
block 0)", and bitmap.c:118,138 say "Block 0". -/
def BM_METAPAGE : Nat := 0

/-- Modelled from the spec: the constant `BM_LOV_STARTPAGE` of `bitmap.h`, a header
that is not among the sources. The spec has the first LOV page follow the meta page,
and bitmap.c:136,141,160 say "Block 1". -/
def BM_LOV_STARTPAGE : Nat := 1

/-- The members of `BMPageOpaqueData` (the special area of a bitmap page). -/
structure BMPageOpaqueData where
  bm_hrl_words_used : Nat
  bm_bitmap_next : Nat
  bm_last_tid_location : Nat
  bm_page_id : Nat
  deriving DecidableEq, Repr

/-- The members of `BMMetaPageData` (the contents of the meta page). -/
structure BMMetaPageData where
  bm_lov_heapId : Nat
  bm_lov_indexId : Nat
  bm_lov_lastpage : Nat
  deriving DecidableEq, Repr

/-- A page: the three offsets of its header, the items its line pointers address
(line pointer `i + 1` addresses `items[i]`), the meta data stored at
`PageGetContents` if any, and the `BMPageOpaqueData` stored in the special area if
any. -/
structure Page (ι : Type) where
  pd_lower : Nat
  pd_upper : Nat
  pd_special : Nat
  items : List ι
  contents : Option BMMetaPageData
  special : Option BMPageOpaqueData
  deriving DecidableEq, Repr

/-- What `bitmap.h` (not among the sources) declares and `bmbuildempty_internal`
uses: two struct sizes, the page id and the routine that forms a LOV item. -/
structure BitmapDecls (ι : Type) where
  sizeof_BMPageOpaqueData : Nat
  sizeof_BMLOVItemData : Nat
  BM_PAGE_ID : Nat
  _bitmap_formitem : Nat → ι

/-- The errors `bmbuildempty_internal` can end with. -/
inductive BuildEmptyError where
  /-- The host's `PageAddItem` found the page header corrupted (a PANIC). -/
  | corrupted_page_pointers
  /-- The error `elog(ERROR, "failed to add NULL LOV item in buildempty")`. -/
  | failed_to_add_NULL_LOV_item
  deriving DecidableEq, Repr

/-- The host routine `PageInit(page, pageSize, specialSize)`: an all-zero page whose
header has `pd_lower` after the page header and `pd_upper = pd_special` before the
(aligned) special area; the offsets are 16-bit. -/
def PageInit {ι : Type} (pageSize specialSize : Nat) : Page ι :=
  let special : Nat := (((pageSize : Int) - (MAXALIGN specialSize : Int)) % 65536).toNat
  { pd_lower := SizeOfPageHeaderData, pd_upper := special, pd_special := special,
    items := [], contents := none, special := none }

/-- The host macro `PageGetMaxOffsetNumber`. -/
def PageGetMaxOffsetNumber {ι : Type} (page : Page ι) : Nat :=
  if page.pd_lower ≤ SizeOfPageHeaderData then 0
  else (page.pd_lower - SizeOfPageHeaderData) / sizeofItemIdData

/-- The host routine `PageAddItem(page, item, size, InvalidOffsetNumber, false, false)`
on a page without free line pointers: the item goes to the line pointer after the
last one if line pointer and (aligned) item fit between `pd_lower` and `pd_upper`;
it returns the offset number (or `InvalidOffsetNumber`) and the page. -/
def PageAddItem {ι : Type} (page : Page ι) (item : ι) (size : Nat) :
    Except BuildEmptyError (Nat × Page ι) :=
  if page.pd_lower < SizeOfPageHeaderData ∨ page.pd_lower > page.pd_upper ∨
      page.pd_upper > page.pd_special ∨ page.pd_special > BLCKSZ then
    Except.error BuildEmptyError.corrupted_page_pointers
  else
    let limit := PageGetMaxOffsetNumber page + 1
    let offsetNumber := limit
    let lower : Int := page.pd_lower + sizeofItemIdData
    let alignedSize := MAXALIGN size
    let upper : Int := (page.pd_upper : Int) - (alignedSize : Int)
    if lower > upper then
      Except.ok (InvalidOffsetNumber, page)
    else
      Except.ok (offsetNumber,
        { page with items := page.items ++ [item], pd_lower := lower.toNat,
                    pd_upper := upper.toNat })

/-- The state of a bulk write: the pages handed over so far with their block
numbers, oldest first. -/
abbrev BulkWriteState (ι : Type) : Type := List (Nat × Page ι)

/-- The host routine `smgr_bulk_start_rel(index, INIT_FORKNUM)`. -/
def smgr_bulk_start_rel {ι : Type} : BulkWriteState ι := []

/-- The host routine `smgr_bulk_write(bulkstate, blocknum, buf, true)`. -/
def smgr_bulk_write {ι : Type} (bulkstate : BulkWriteState ι) (blocknum : Nat)
    (buf : Page ι) : BulkWriteState ι :=
  bulkstate ++ [(blocknum, buf)]

/-- The host routine `smgr_bulk_finish(bulkstate)`: the pages written to the fork. -/
def smgr_bulk_finish {ι : Type} (bulkstate : BulkWriteState ι) : List (Nat × Page ι) :=
  bulkstate

/-- The routine `bmbuildempty_internal(index)` (bitmap.c:101-165): the pages it writes
to the initialization fork, each with its block number, in the order written. -/
def bmbuildempty_internal {ι : Type} (D : BitmapDecls ι) :
    Except BuildEmptyError (List (Nat × Page ι)) := do
  /- 1. Start bulk write operation on the initialization fork -/
  let bulkstate : BulkWriteState ι := smgr_bulk_start_rel
  /- 2. Construct and write Meta Page (Block 0) -/
  let metapage : Page ι := PageInit BLCKSZ D.sizeof_BMPageOpaqueData
  /- Set Opaque Data -/
  let specialData : BMPageOpaqueData :=
    { bm_hrl_words_used := 0, bm_bitmap_next := InvalidBlockNumber,
      bm_last_tid_location := 0, bm_page_id := D.BM_PAGE_ID }
  let metapage := { metapage with special := some specialData }
  /- Set Meta Data -/
  let bm_metapage : BMMetaPageData :=
    { bm_lov_heapId := InvalidOid, bm_lov_indexId := InvalidOid,
      bm_lov_lastpage := BM_LOV_STARTPAGE }
  let metapage := { metapage with contents := some bm_metapage }
  /- Write Meta Page to Block 0 -/
  let bulkstate := smgr_bulk_write bulkstate BM_METAPAGE metapage
  /- 3. Build and Write the First LOV Page (Block 1) -/
  let lovpage : Page ι := PageInit BLCKSZ 0
  /- Add the first empty LOV item (corresponding to a NULL value) -/
  let lovItem := D._bitmap_formitem 0
  let (off, lovpage) ← PageAddItem lovpage lovItem D.sizeof_BMLOVItemData
  if off = InvalidOffsetNumber then
    throw BuildEmptyError.failed_to_add_NULL_LOV_item
  /- Write LOV Page to Block 1 -/
  let bulkstate := smgr_bulk_write bulkstate BM_LOV_STARTPAGE lovpage
  /- 4. Finish the bulk write operation -/
  pure (smgr_bulk_finish bulkstate)

/-- A LOV item that only records the TID number it was formed for. -/
structure PlaceholderItem where
  currTidNumber : Nat
  deriving DecidableEq, Repr

/-- An instance of the declarations of `bitmap.h`, with a 24-byte page opaque struct
and a 40-byte LOV item. -/
def sampleDecls : BitmapDecls PlaceholderItem :=
  { sizeof_BMPageOpaqueData := 24, sizeof_BMLOVItemData := 40, BM_PAGE_ID := 65411,
    _bitmap_formitem := fun n => ⟨n⟩ }

/-! ## Section 4: scan positions, mark, restore, end of scan -/

/-- The host constant `InvalidBuffer`. -/
def InvalidBuffer : Int := 0

/-- The host routine `BufferIsValid`. -/
def BufferIsValid (bufnum : Int) : Bool := bufnum != InvalidBuffer

/-- A C pointer: `none` is `NULL`, `some a` is the address `a` in the heap of the
pointed-to type. -/
abbrev Ptr : Type := Option Nat

/-- The ways a routine can fail to return. -/
inductive Fault where
  | null_pointer_dereference
  | uninitialised_read
  | invalid_pointer
  | out_of_bounds
  /-- The host's `ReleaseBuffer` / `IncrBufferRefCount` on a buffer this backend has
  not pinned. -/
  | buffer_not_pinned
  /-- An `elog(ERROR, ...)`. -/
  | error (message : String)
  deriving DecidableEq, Repr

/-- The struct `BMVectorData`, the per-vector state of a scan position:
the members `bitmap.c` touches and the remaining ones (`other`). -/
structure BMVectorData where
  bm_lovBuffer : Int
  bm_batchWords : Ptr
  other : Nat
  deriving DecidableEq, Repr

/-- The struct `BMScanPositionData`. A member of a struct obtained from `palloc`
holds no value (`none`) until it is assigned. `posvecs` points to an array of
`BMVectorData`. -/
structure BMScanPositionData where
  nvec : Option Nat
  bm_batchWords : Option Ptr
  posvecs : Option Ptr
  other : Option Nat
  deriving DecidableEq, Repr

/-- The struct `BMScanOpaqueData`. -/
structure BMScanOpaqueData where
  bm_currPos : Ptr
  bm_markPos : Ptr
  cur_pos_valid : Bool
  mark_pos_valid : Bool
  scanMemoryContext : Ptr
  deriving DecidableEq, Repr

/-- The calls to the buffer manager and the memory manager that a scan makes. -/
inductive ScanEvent where
  | ReleaseBuffer (buffer : Int)
  | IncrBufferRefCount (buffer : Int)
  | MemoryContextReset (context : Nat)
  | MemoryContextDelete (context : Nat)
  | pfree_so
  deriving DecidableEq, Repr

/-- The memory of the backend and one scan descriptor.
* `positions`: the heap of `BMScanPositionData` structs, address `a` is entry `a`;
* `vectors`: the heap of `BMVectorData` arrays, address `a` is entry `a`;
* `nBatchWords`: the number of `BMBatchWords` objects allocated so far;
* `nContexts`: the number of memory contexts created so far;
* `pins`: the buffer pins this backend holds, one entry per pin;
* `events`: the buffer and memory manager calls made so far, oldest first;
* `numberOfKeys`, `keyData`: members of the scan descriptor;
* `so`: the member `scan->opaque` (`none` is `NULL`). -/
structure ScanWorld where
  positions : List BMScanPositionData
  vectors : List (List BMVectorData)
  nBatchWords : Nat
  nContexts : Nat
  pins : List Int
  events : List ScanEvent
  numberOfKeys : Nat
  keyData : List Nat
  so : Option BMScanOpaqueData
  deriving DecidableEq, Repr

/-- Read a struct member: a member never assigned has no value to read. -/
def member {α : Type} (m : Option α) : Except Fault α :=
  match m with
  | none => Except.error Fault.uninitialised_read
  | some a => Except.ok a

/-- Dereference `scan->opaque`. -/
def ScanWorld.getSo (w : ScanWorld) : Except Fault BMScanOpaqueData :=
  match w.so with
  | none => Except.error Fault.null_pointer_dereference
  | some so => Except.ok so

/-- Dereference a pointer to a `BMScanPositionData`. -/
def ScanWorld.readPos (w : ScanWorld) (p : Ptr) : Except Fault BMScanPositionData :=
  match p with
  | none => Except.error Fault.null_pointer_dereference
  | some a =>
    match w.positions.get? a with
    | none => Except.error Fault.invalid_pointer
    | some pos => Except.ok pos

/-- Assign through a pointer to a `BMScanPositionData`. -/
def ScanWorld.writePos (w : ScanWorld) (p : Ptr) (pos : BMScanPositionData) :
    Except Fault ScanWorld :=
  match p with
  | none => Except.error Fault.null_pointer_dereference
  | some a =>
    if a < w.positions.length then
      Except.ok { w with positions := w.positions.set a pos }
    else Except.error Fault.invalid_pointer

/-- Read `base[i]` for a pointer `base` to a `BMVectorData` array. -/
def ScanWorld.readVec (w : ScanWorld) (base : Ptr) (i : Nat) : Except Fault BMVectorData :=
  match base with
  | none => Except.error Fault.null_pointer_dereference
  | some a =>
    match w.vectors.get? a with
    | none => Except.error Fault.invalid_pointer
    | some arr =>
      match arr.get? i with
      | none => Except.error Fault.out_of_bounds
      | some v => Except.ok v

/-- Assign `base[i] = v` for a pointer `base` to a `BMVectorData` array. -/
def ScanWorld.writeVec (w : ScanWorld) (base : Ptr) (i : Nat) (v : BMVectorData) :
    Except Fault ScanWorld :=
  match base with
  | none => Except.error Fault.null_pointer_dereference
  | some a =>
    match w.vectors.get? a with
    | none => Except.error Fault.invalid_pointer
    | some arr =>
      if i < arr.length then
        Except.ok { w with vectors := w.vectors.set a (arr.set i v) }
      else Except.error Fault.out_of_bounds

/-- The call `palloc(sizeof(BMScanPositionData))`: a new struct, no member assigned. -/
def ScanWorld.pallocPos (w : ScanWorld) : Nat × ScanWorld :=
  (w.positions.length, { w with positions := w.positions ++ [⟨none, none, none, none⟩] })

/-- The call `palloc0(n * sizeof(BMVectorData))`: a new array of `n` zeroed vectors. -/
def ScanWorld.palloc0Vectors (w : ScanWorld) (n : Nat) : Nat × ScanWorld :=
  (w.vectors.length,
    { w with vectors := w.vectors ++ [List.replicate n ⟨InvalidBuffer, none, 0⟩] })

/-- The call `palloc0(sizeof(BMBatchWords))` followed by `_bitmap_init_batchwords`:
a new, initialised `BMBatchWords` object. -/
def ScanWorld.pallocBatchWords (w : ScanWorld) : Nat × ScanWorld :=
  (w.nBatchWords, { w with nBatchWords := w.nBatchWords + 1 })

/-- The call `memcpy(dst, src, n * sizeof(BMVectorData))`. -/
def ScanWorld.memcpyVectors (w : ScanWorld) (dst src : Ptr) (n : Nat) :
    Except Fault ScanWorld :=
  match dst, src with
  | some d, some s =>
    match w.vectors.get? d, w.vectors.get? s with
    | some darr, some sarr =>
      if n ≤ darr.length ∧ n ≤ sarr.length then
        Except.ok { w with vectors := w.vectors.set d (sarr.take n ++ darr.drop n) }
      else Except.error Fault.out_of_bounds
    | _, _ => Except.error Fault.invalid_pointer
  | _, _ => Except.error Fault.null_pointer_dereference

/-- The host routine `ReleaseBuffer`: drops one pin of the buffer. -/
def ReleaseBuffer (buffer : Int) (w : ScanWorld) : Except Fault ScanWorld :=
  if buffer ∈ w.pins then
    Except.ok { w with pins := w.pins.erase buffer,
                       events := w.events ++ [ScanEvent.ReleaseBuffer buffer] }
  else Except.error Fault.buffer_not_pinned

/-- The host routine `IncrBufferRefCount`: adds one pin to a buffer already pinned. -/
def IncrBufferRefCount (buffer : Int) (w : ScanWorld) : Except Fault ScanWorld :=
  if buffer ∈ w.pins then
    Except.ok { w with pins := buffer :: w.pins,
                       events := w.events ++ [ScanEvent.IncrBufferRefCount buffer] }
  else Except.error Fault.buffer_not_pinned

/-- The loop of bitmap.c:375-382 (in `bmmarkpos_internal`) and of bitmap.c:454-462
(in `bmrestrpos_internal`): for `vectorNo` from its start value while below `nvec`,
release the buffer of `bmScanPos[vectorNo]` if it is valid and set it to
`InvalidBuffer`. `todo` is the number of iterations left. -/
def releaseAndInvalidateLoop (bmScanPos : Ptr) :
    (todo : Nat) → (vectorNo : Nat) → ScanWorld → Except Fault ScanWorld
  | 0, _, w => Except.ok w
  | todo + 1, vectorNo, w => do
    let v ← w.readVec bmScanPos vectorNo
    let w1 ←
      if BufferIsValid v.bm_lovBuffer then do
        let w0 ← ReleaseBuffer v.bm_lovBuffer w
        w0.writeVec bmScanPos vectorNo { v with bm_lovBuffer := InvalidBuffer }
      else pure w
    releaseAndInvalidateLoop bmScanPos todo (vectorNo + 1) w1

/-- The loop of bitmap.c:402-417 (in `bmmarkpos_internal`): pin the valid buffer of
`bmScanPos[vectorNo]` once more and, when the marked position was just allocated,
give `markPosvecs[vectorNo]` new batch words. -/
def markPinLoop (bmScanPos markPosvecs : Ptr) (need_init : Bool) :
    (todo : Nat) → (vectorNo : Nat) → ScanWorld → Except Fault ScanWorld
  | 0, _, w => Except.ok w
  | todo + 1, vectorNo, w => do
    let v ← w.readVec bmScanPos vectorNo
    let w1 ←
      if BufferIsValid v.bm_lovBuffer then IncrBufferRefCount v.bm_lovBuffer w
      else pure w
    let w2 ←
      if need_init then do
        let (bw, w0) := w1.pallocBatchWords
        let p ← w0.readVec markPosvecs vectorNo
        w0.writeVec markPosvecs vectorNo { p with bm_batchWords := some bw }
      else pure w1
    markPinLoop bmScanPos markPosvecs need_init todo (vectorNo + 1) w2

/-- The loop of bitmap.c:478-483 (in `bmrestrpos_internal`): pin the valid buffer of
`bmScanPos[vectorNo]` once more. -/
def restorePinLoop (bmScanPos : Ptr) :
    (todo : Nat) → (vectorNo : Nat) → ScanWorld → Except Fault ScanWorld
  | 0, _, w => Except.ok w
  | todo + 1, vectorNo, w => do
    let v ← w.readVec bmScanPos vectorNo
    let w1 ←
      if BufferIsValid v.bm_lovBuffer then IncrBufferRefCount v.bm_lovBuffer w
      else pure w
    restorePinLoop bmScanPos todo (vectorNo + 1) w1

/-- The loop of bitmap.c:341-347 (in `bmendscan_internal`): release the valid buffer of
`so->bm_currPos->posvecs[keyNo]`. -/
def endscanReleaseLoop (currPos : Ptr) :
    (todo : Nat) → (keyNo : Nat) → ScanWorld → Except Fault ScanWorld
  | 0, _, w => Except.ok w
  | todo + 1, keyNo, w => do
    let pos ← w.readPos currPos
    let posvecs ← member pos.posvecs
    let v ← w.readVec posvecs keyNo
    let w1 ←
      if BufferIsValid v.bm_lovBuffer then ReleaseBuffer v.bm_lovBuffer w
      else pure w
    endscanReleaseLoop currPos todo (keyNo + 1) w1

/-- The first part of `bmmarkpos_internal` (bitmap.c:366-384): when a mark is valid,
release the buffers stored for the marked position and clear the flag. -/
def bmmarkpos_free (w : ScanWorld) : Except Fault ScanWorld := do
  let so ← w.getSo
  if so.mark_pos_valid then
    let markPos ← w.readPos so.bm_markPos
    let bmScanPos ← member markPos.posvecs
    let nvec ← member markPos.nvec
    let w1 ← releaseAndInvalidateLoop bmScanPos nvec 0 w
    pure { w1 with so := some { so with mark_pos_valid := false } }
  else pure w

/-- The second part of `bmmarkpos_internal` (bitmap.c:386-431): when the current
position is valid, set the mark position from it. -/
def bmmarkpos_set (w : ScanWorld) : Except Fault ScanWorld := do
  let so ← w.getSo
  if so.cur_pos_valid then
    /- set the mark position -/
    let (w1, need_init) ←
      (if so.bm_markPos = none then do
        let (pm, wa) := w.pallocPos
        let wb : ScanWorld := { wa with so := some { so with bm_markPos := some pm } }
        let currPos ← wb.readPos so.bm_currPos
        let nvec ← member currPos.nvec
        let (pv, wc) := wb.palloc0Vectors nvec
        let markPos ← wc.readPos (some pm)
        let wd ← wc.writePos (some pm) { markPos with posvecs := some (some pv) }
        pure (wd, true)
      else pure (w, false) : Except Fault (ScanWorld × Bool))
    let so1 ← w1.getSo
    let currPos ← w1.readPos so1.bm_currPos
    let bmScanPos ← member currPos.posvecs
    let nvec ← member currPos.nvec
    let markPos ← w1.readPos so1.bm_markPos
    let markPosvecs ← member markPos.posvecs
    let w2 ← markPinLoop bmScanPos markPosvecs need_init nvec 0 w1
    let w3 ←
      (if nvec = 1 then do
        let v0 ← w2.readVec markPosvecs 0
        let markPos2 ← w2.readPos so1.bm_markPos
        w2.writePos so1.bm_markPos { markPos2 with bm_batchWords := some v0.bm_batchWords }
      else pure w2 : Except Fault ScanWorld)
    /- memcpy(so->bm_markPos->posvecs, bmScanPos, nvec * sizeof(BMVectorData)) -/
    let w4 ← w3.memcpyVectors markPosvecs bmScanPos nvec
    /- memcpy(so->bm_markPos, so->bm_currPos, size) -/
    let currPos4 ← w4.readPos so1.bm_currPos
    let w5 ← w4.writePos so1.bm_markPos currPos4
    pure { w5 with so := some { so1 with mark_pos_valid := true } }
  else pure w

/-- The routine `bmmarkpos_internal` (bitmap.c:358-434). -/
def bmmarkpos_internal (w : ScanWorld) : Except Fault ScanWorld := do
  let w1 ← bmmarkpos_free w
  bmmarkpos_set w1

/-- The first part of `bmrestrpos_internal` (bitmap.c:448-464): when the current
position is valid, release the buffers stored for it and clear the flag. The loop
runs over `so->bm_currPos->posvecs` and is bounded by `so->bm_markPos->nvec`. -/
def bmrestrpos_free (w : ScanWorld) : Except Fault ScanWorld := do
  let so ← w.getSo
  if so.cur_pos_valid then
    let currPos ← w.readPos so.bm_currPos
    let bmScanPos ← member currPos.posvecs
    let markPos ← w.readPos so.bm_markPos
    let nvec ← member markPos.nvec
    let w1 ← releaseAndInvalidateLoop bmScanPos nvec 0 w
    pure { w1 with so := some { so with cur_pos_valid := false } }
  else pure w

/-- The second part of `bmrestrpos_internal` (bitmap.c:466-490): when a mark is
valid, set the current position from it. The loop runs over
`so->bm_markPos->posvecs` and is bounded by `so->bm_currPos->nvec`. -/
def bmrestrpos_set (w : ScanWorld) : Except Fault ScanWorld := do
  let so ← w.getSo
  if so.mark_pos_valid then
    /- set the current position -/
    let w1 : ScanWorld :=
      if so.bm_currPos = none then
        let (pc, wa) := w.pallocPos
        { wa with so := some { so with bm_currPos := some pc } }
      else w
    let so1 ← w1.getSo
    let markPos ← w1.readPos so1.bm_markPos
    let bmScanPos ← member markPos.posvecs
    let currPos ← w1.readPos so1.bm_currPos
    let nvec ← member currPos.nvec
    let w2 ← restorePinLoop bmScanPos nvec 0 w1
    /- memcpy(so->bm_currPos->posvecs, bmScanPos, so->bm_markPos->nvec * ...) -/
    let currPos2 ← w2.readPos so1.bm_currPos
    let currPosvecs ← member currPos2.posvecs
    let markPos2 ← w2.readPos so1.bm_markPos
    let marknvec ← member markPos2.nvec
    let w3 ← w2.memcpyVectors currPosvecs bmScanPos marknvec
    /- memcpy(so->bm_currPos, so->bm_markPos, size) -/
    let markPos3 ← w3.readPos so1.bm_markPos
    let w4 ← w3.writePos so1.bm_currPos markPos3
    pure { w4 with so := some { so1 with cur_pos_valid := true } }
  else pure w

/-- The routine `bmrestrpos_internal` (bitmap.c:439-493). -/
def bmrestrpos_internal (w : ScanWorld) : Except Fault ScanWorld := do
  let w1 ← bmrestrpos_free w
  bmrestrpos_set w1

/-- The routine `bmbeginscan_internal(indexRelation, nkeys, norderbys)`
(bitmap.c:260-294): a new scan descriptor with `nkeys` keys (the host's
`RelationGetIndexScan`) whose `BMScanOpaqueData` has a new memory context, no current
and no marked position, and both flags false. -/
def bmbeginscan_internal (nkeys : Nat) (w : ScanWorld) : ScanWorld :=
  { w with
    numberOfKeys := nkeys
    keyData := List.replicate nkeys 0
    nContexts := w.nContexts + 1
    so := some { scanMemoryContext := some w.nContexts, bm_currPos := none,
                 bm_markPos := none, cur_pos_valid := false, mark_pos_valid := false } }

/-- The routine `bmrescan_internal(scan, scankey, nscankeys, orderbys, norderbys)`
(bitmap.c:300-321); `scankey` is `none` for a `NULL` argument. -/
def bmrescan_internal (scankey : Option (List Nat)) (w : ScanWorld) :
    Except Fault ScanWorld :=
  match w.so with
  | none => Except.error (Fault.error "bmrescan called without scan context")
  | some so =>
    match so.scanMemoryContext with
    | none => Except.error (Fault.error "bmrescan called without scan context")
    | some context =>
      let w1 : ScanWorld :=
        { w with events := w.events ++ [ScanEvent.MemoryContextReset context]
                 so := some { so with bm_currPos := none, bm_markPos := none,
                                      cur_pos_valid := false, mark_pos_valid := false } }
      /- reset scankey -/
      match scankey with
      | some keys =>
        if w1.numberOfKeys > 0 then
          if w1.numberOfKeys ≤ keys.length ∧ w1.numberOfKeys ≤ w1.keyData.length then
            Except.ok { w1 with keyData := keys.take w1.numberOfKeys ++
                                           w1.keyData.drop w1.numberOfKeys }
          else Except.error Fault.out_of_bounds
        else Except.ok w1
      | none => Except.ok w1

/-- The routine `bmendscan_internal(scan)` (bitmap.c:326-353). -/
def bmendscan_internal (w : ScanWorld) : Except Fault ScanWorld :=
  match w.so with
  | none => Except.ok w
  | some so => do
    let currPos ← w.readPos so.bm_currPos
    let nvec ← member currPos.nvec
    let w1 ← endscanReleaseLoop so.bm_currPos nvec 0 w
    let w2 : ScanWorld :=
      match so.scanMemoryContext with
      | some context =>
        { w1 with events := w1.events ++ [ScanEvent.MemoryContextDelete context] }
      | none => w1
    pure { w2 with events := w2.events ++ [ScanEvent.pfree_so], so := none }

/-- The per-vector state of the current position, read as the scan reads it:
`so->bm_currPos->posvecs[0 .. nvec)`. -/
def currentVectors (w : ScanWorld) : Except Fault (List BMVectorData) := do
  let so ← w.getSo
  let currPos ← w.readPos so.bm_currPos
  let posvecs ← member currPos.posvecs
  let nvec ← member currPos.nvec
  (List.range nvec).mapM (fun i => w.readVec posvecs i)

/-- The per-vector state of the marked position: `so->bm_markPos->posvecs[0 .. nvec)`. -/
def markedVectors (w : ScanWorld) : Except Fault (List BMVectorData) := do
  let so ← w.getSo
  let markPos ← w.readPos so.bm_markPos
  let posvecs ← member markPos.posvecs
  let nvec ← member markPos.nvec
  (List.range nvec).mapM (fun i => w.readVec posvecs i)

/-- The pointer `so->bm_currPos->posvecs`. -/
def currentPosvecs (w : ScanWorld) : Except Fault Ptr := do
  let so ← w.getSo
  let currPos ← w.readPos so.bm_currPos
  member currPos.posvecs

/-- The pointer `so->bm_markPos->posvecs`. -/
def markedPosvecs (w : ScanWorld) : Except Fault Ptr := do
  let so ← w.getSo
  let markPos ← w.readPos so.bm_markPos
  member markPos.posvecs

/-- An assignment to vector `i` of the current position,
`so->bm_currPos->posvecs[i] = v`, as advancing the scan makes. -/
def advanceVector (i : Nat) (v : BMVectorData) (w : ScanWorld) : Except Fault ScanWorld := do
  let so ← w.getSo
  let currPos ← w.readPos so.bm_currPos
  let posvecs ← member currPos.posvecs
  w.writeVec posvecs i v

/-- A backend with no scan, holding nothing. -/
def emptyWorld : ScanWorld :=
  { positions := [], vectors := [], nBatchWords := 0, nContexts := 0, pins := [],
    events := [], numberOfKeys := 0, keyData := [], so := none }

/-- A scan positioned on one bitmap vector: the current position (struct 0) has one
vector (array 0) whose LOV page is held in buffer 7, pinned once, with batch words 0;
no mark was ever set. -/
def positionedScan : ScanWorld :=
  { positions := [⟨some 1, some (some 0), some (some 0), some 5⟩],
    vectors := [[⟨7, some 0, 11⟩]],
    nBatchWords := 1, nContexts := 1, pins := [7], events := [],
    numberOfKeys := 1, keyData := [0],
    so := some { bm_currPos := some 0, bm_markPos := none, cur_pos_valid := true,
                 mark_pos_valid := false, scanMemoryContext := some 0 } }

/-- The vector `v` with its page reference set to `InvalidBuffer`. -/
def invalidated (v : BMVectorData) : BMVectorData := { v with bm_lovBuffer := InvalidBuffer }

/-- The valid page references held by a list of vectors, in order. -/
def validBuffers (l : List BMVectorData) : List Int :=
  (l.map (fun v => v.bm_lovBuffer)).filter BufferIsValid

/-- A scan whose current position (struct 0, vectors in array 0) is valid and holds
the page references 7 and 9, and whose marked position (struct 1, array 1) has been
released: the mark flag is false. -/
def scanWithReleasedMark : ScanWorld :=
  { positions := [⟨some 2, some none, some (some 0), some 5⟩,
                  ⟨some 2, some none, some (some 1), some 4⟩],
    vectors := [[⟨7, some 0, 11⟩, ⟨9, some 1, 12⟩],
                [⟨InvalidBuffer, some 2, 3⟩, ⟨InvalidBuffer, some 3, 4⟩]],
    nBatchWords := 4, nContexts := 1, pins := [7, 9], events := [],
    numberOfKeys := 1, keyData := [0],
    so := some { bm_currPos := some 0, bm_markPos := some 1, cur_pos_valid := true,
                 mark_pos_valid := false, scanMemoryContext := some 0 } }

/-! ## Section 5: `bmgettuple_internal` and pin accounting -/

/-- The search routines `bmgettuple_internal` calls, `_bitmap_first(scan, dir)` and
`_bitmap_next(scan, dir)`: each returns its boolean result and the world it leaves,
or faults. -/
structure ScanSearch where
  _bitmap_first : Int → ScanWorld → Except Fault (Bool × ScanWorld)
  _bitmap_next : Int → ScanWorld → Except Fault (Bool × ScanWorld)

/-- The routine `bmgettuple_internal(scan, dir)` (bitmap.c:201-220). -/
def bmgettuple_internal (S : ScanSearch) (dir : Int) (w : ScanWorld) :
    Except Fault (Bool × ScanWorld) := do
  let so ← w.getSo
  /- If we have already begun our scan, continue in the same direction.
     Otherwise, start up the scan. -/
  if so.bm_currPos.isSome && so.cur_pos_valid then
    S._bitmap_next dir w
  else
    S._bitmap_first dir w

/-- The number of pins the backend holds on `buffer`. -/
def pinCount (w : ScanWorld) (buffer : Int) : Nat := w.pins.count buffer

/-- The number of valid references to `buffer` among the vectors of a position. -/
def referenceCount (vectors : List BMVectorData) (buffer : Int) : Nat :=
  (validBuffers vectors).count buffer

/-! ## Section 6: the access method handler `bmhandler` -/

/-- The routines of the access method that can be bound in the routine table. -/
inductive AmFunction where
  | bmbuild_internal
  | bmbuildempty_internal
  | bminsert_internal
  | bminsertcleanup_internal
  | bmbulkdelete_internal
  | bmvacuumcleanup_internal
  | bmcostestimate_internal
  | bmoptions_internal
  | bmvalidate_internal
  | bmbeginscan_internal
  | bmrescan_internal
  | bmgettuple_internal
  | bmgetbitmap_internal
  | bmendscan_internal
  | bmmarkpos_internal
  | bmrestrpos_internal
  deriving DecidableEq, Repr

/-- The host struct `IndexAmRoutine`, the members `bmhandler` assigns: the properties
of the access method and its function pointers (`none` is `NULL`). -/
structure IndexAmRoutine where
  amstrategies : Nat
  amsupport : Nat
  amcanorder : Bool
  amcanorderbyop : Bool
  amcanbackward : Bool
  amcanunique : Bool
  amcanmulticol : Bool
  amoptionalkey : Bool
  amsearcharray : Bool
  amsearchnulls : Bool
  amstorage : Bool
  ampredlocks : Bool
  amcanparallel : Bool
  amcaninclude : Bool
  amusemaintenanceworkmem : Bool
  amparallelvacuumoptions : Nat
  amkeytype : Nat
  ambuild : Option AmFunction
  ambuildempty : Option AmFunction
  aminsert : Option AmFunction
  ambulkdelete : Option AmFunction
  amvacuumcleanup : Option AmFunction
  amcanreturn : Option AmFunction
  amcostestimate : Option AmFunction
  amoptions : Option AmFunction
  amproperty : Option AmFunction
  ambuildphasename : Option AmFunction
  amvalidate : Option AmFunction
  amadjustmembers : Option AmFunction
  ambeginscan : Option AmFunction
  amrescan : Option AmFunction
  amgettuple : Option AmFunction
  amgetbitmap : Option AmFunction
  amendscan : Option AmFunction
  ammarkpos : Option AmFunction
  amrestrpos : Option AmFunction
  amestimateparallelscan : Option AmFunction
  aminitparallelscan : Option AmFunction
  amparallelrescan : Option AmFunction
  deriving DecidableEq, Repr

/-- The routine table `bmhandler` returns (yabit.c:47-98). -/
def bmhandler : IndexAmRoutine :=
  { amstrategies := 6
    amsupport := 1
    amcanorder := false
    amcanorderbyop := false
    amcanbackward := true
    amcanunique := false
    amcanmulticol := false
    amoptionalkey := true
    amsearcharray := true
    amsearchnulls := true
    amstorage := false
    ampredlocks := true
    amcanparallel := false
    amcaninclude := false
    amusemaintenanceworkmem := false
    amparallelvacuumoptions := 0
    amkeytype := InvalidOid
    ambuild := some AmFunction.bmbuild_internal
    ambuildempty := some AmFunction.bmbuildempty_internal
    aminsert := some AmFunction.bminsert_internal
    ambulkdelete := some AmFunction.bmbulkdelete_internal
    amvacuumcleanup := some AmFunction.bmvacuumcleanup_internal
    amcanreturn := none
    amcostestimate := some AmFunction.bmcostestimate_internal
    amoptions := some AmFunction.bmoptions_internal
    amproperty := none
    ambuildphasename := none
    amvalidate := some AmFunction.bmvalidate_internal
    amadjustmembers := none
    ambeginscan := some AmFunction.bmbeginscan_internal
    amrescan := some AmFunction.bmrescan_internal
    amgettuple := none
    amgetbitmap := some AmFunction.bmgetbitmap_internal
    amendscan := some AmFunction.bmendscan_internal
    ammarkpos := none
    amrestrpos := none
    amestimateparallelscan := none
    aminitparallelscan := none
    amparallelrescan := none }

/-! ## Section 7: the LOV heap and index (`bitmapattutil.c`) -/

/-- The host constant `INT4OID`. -/
def INT4OID : Nat := 23

/-- The host constant `INDEX_MAX_KEYS`. -/
def INDEX_MAX_KEYS : Nat := 32

/-- The host struct `FormData_pg_attribute`: the members the routines of this section
read or assign, and `other` for the remaining members that a copy of an attribute
keeps (alignment, storage, collation). -/
structure FormData_pg_attribute where
  attrelid : Nat
  attname : String
  atttypid : Nat
  attlen : Int
  attnum : Nat
  atttypmod : Int
  attndims : Int
  attbyval : Bool
  attnotnull : Bool
  atthasdef : Bool
  attisdropped : Bool
  other : Nat
  deriving DecidableEq, Repr

/-- A tuple descriptor under construction: its `natts` attribute entries, an entry
being `none` until it is initialised. -/
abbrev TupleDesc : Type := List (Option FormData_pg_attribute)

/-- The host routine `CreateTemplateTupleDesc(natts)`. -/
def CreateTemplateTupleDesc (natts : Nat) : TupleDesc := List.replicate natts none

/-- The host routine `TupleDescCopyEntry(dst, dstAttno, src, srcAttno)`: copies the
attribute and clears its constraint and default flags. -/
def TupleDescCopyEntry (dst : TupleDesc) (dstAttno : Nat)
    (src : List FormData_pg_attribute) (srcAttno : Nat) : Except Fault TupleDesc :=
  if 1 ≤ srcAttno ∧ 1 ≤ dstAttno ∧ dstAttno ≤ dst.length then
    match src.get? (srcAttno - 1) with
    | none => Except.error Fault.out_of_bounds
    | some srcAtt =>
      Except.ok (dst.set (dstAttno - 1)
        (some { srcAtt with attnum := dstAttno, attnotnull := false, atthasdef := false }))
  else Except.error Fault.out_of_bounds

/-- The type length the host's type catalog gives for a type; this section looks up
`INT4OID` only. -/
def typlen (oidtypeid : Nat) : Option Int :=
  if oidtypeid = INT4OID then some 4 else none

/-- The host routine
`TupleDescInitEntry(desc, attributeNumber, attributeName, oidtypeid, typmod, attdim)`. -/
def TupleDescInitEntry (desc : TupleDesc) (attributeNumber : Nat) (attributeName : String)
    (oidtypeid : Nat) (typmod : Int) (attdim : Int) : Except Fault TupleDesc :=
  if 1 ≤ attributeNumber ∧ attributeNumber ≤ desc.length then
    match typlen oidtypeid with
    | none => Except.error (Fault.error "cache lookup failed for type")
    | some len =>
      Except.ok (desc.set (attributeNumber - 1)
        (some { attrelid := 0, attname := attributeName, atttypid := oidtypeid,
                attlen := len, attnum := attributeNumber, atttypmod := typmod,
                attndims := attdim, attbyval := true, attnotnull := false,
                atthasdef := false, attisdropped := false, other := 0 }))
  else Except.error Fault.out_of_bounds

/-- An assignment to members of `TupleDescAttr(tupDesc, i)`, an initialised entry. -/
def assignAttr (tupDesc : TupleDesc) (i : Nat)
    (f : FormData_pg_attribute → FormData_pg_attribute) : Except Fault TupleDesc :=
  match tupDesc.get? i with
  | none => Except.error Fault.out_of_bounds
  | some none => Except.error Fault.uninitialised_read
  | some (some att) => Except.ok (tupDesc.set i (some (f att)))

/-- The loop of `_bitmap_create_lov_heapTupleDesc` (bitmapattutil.c:208-217), for
`attno` from its start value, `todo` iterations left. -/
def copyAttributesLoop (oldTupDesc : List FormData_pg_attribute) :
    (todo : Nat) → (attno : Nat) → TupleDesc → Except Fault TupleDesc
  | 0, _, tupDesc => Except.ok tupDesc
  | todo + 1, attno, tupDesc => do
    /- copy the attribute to the new tuple descriptor. -/
    let d1 ← TupleDescCopyEntry tupDesc attno oldTupDesc attno
    /- set the attrelid to InvalidOid to mark it as a non-column attribute. -/
    let d2 ← assignAttr d1 (attno - 1) (fun att => { att with attrelid := InvalidOid })
    let oldAtt ←
      (match oldTupDesc.get? (attno - 1) with
       | none => Except.error Fault.out_of_bounds
       | some att => Except.ok att : Except Fault FormData_pg_attribute)
    let d3 ← assignAttr d2 (attno - 1) (fun att => { att with attnotnull := oldAtt.attnotnull })
    let d4 ← assignAttr d3 (attno - 1) (fun att => { att with attisdropped := false })
    copyAttributesLoop oldTupDesc todo (attno + 1) d4

/-- The routine `_bitmap_create_lov_heapTupleDesc(rel)` (bitmapattutil.c:195-231);
`oldTupDesc` is `RelationGetDescr(rel)`. The index has at most `INDEX_MAX_KEYS`
attributes, so the 16-bit `attno` does not overflow. -/
def _bitmap_create_lov_heapTupleDesc (oldTupDesc : List FormData_pg_attribute) :
    Except Fault TupleDesc := do
  let natts := oldTupDesc.length + 2
  let tupDesc := CreateTemplateTupleDesc natts
  let d1 ← copyAttributesLoop oldTupDesc oldTupDesc.length 1 tupDesc
  let attno := oldTupDesc.length + 1
  /- the block number -/
  let d2 ← TupleDescInitEntry d1 attno "blockNumber" INT4OID (-1) 0
  let d3 ← assignAttr d2 (attno - 1) (fun att => { att with attnotnull := true })
  let d4 ← assignAttr d3 (attno - 1) (fun att => { att with attrelid := InvalidOid })
  let attno := attno + 1
  /- the offset number -/
  let d5 ← TupleDescInitEntry d4 attno "offsetNumber" INT4OID (-1) 0
  let d6 ← assignAttr d5 (attno - 1) (fun att => { att with attnotnull := true })
  let d7 ← assignAttr d6 (attno - 1) (fun att => { att with attrelid := InvalidOid })
  pure d7

/-- The descriptor of a bitmap index on two columns: a `text` column and a NOT NULL
`int8` column of relation 16384. -/
def sampleIndexDesc : List FormData_pg_attribute :=
  [{ attrelid := 16384, attname := "city", atttypid := 25, attlen := -1, attnum := 1,
     atttypmod := -1, attndims := 0, attbyval := false, attnotnull := false,
     atthasdef := false, attisdropped := false, other := 7 },
   { attrelid := 16384, attname := "code", atttypid := 20, attlen := 8, attnum := 2,
     atttypmod := -1, attndims := 0, attbyval := true, attnotnull := true,
     atthasdef := false, attisdropped := false, other := 9 }]

/-- The entry the loop of `_bitmap_create_lov_heapTupleDesc` leaves for the index
attribute `att` at attribute number `attno`. -/
def copiedAttr (att : FormData_pg_attribute) (attno : Nat) : FormData_pg_attribute :=
  { att with attnum := attno, attrelid := InvalidOid, atthasdef := false,
             attisdropped := false }

/-- The entries for a list of index attributes, numbered from `attno`. -/
def copiedAttrs : List FormData_pg_attribute → Nat → List FormData_pg_attribute
  | [], _ => []
  | att :: rest, attno => copiedAttr att attno :: copiedAttrs rest (attno + 1)

/-- The entry for one of the two location columns of the LOV heap. -/
def locationAttr (name : String) (attno : Nat) : FormData_pg_attribute :=
  { attrelid := InvalidOid, attname := name, atttypid := INT4OID, attlen := 4,
    attnum := attno, atttypmod := -1, attndims := 0, attbyval := true, attnotnull := true,
    atthasdef := false, attisdropped := false, other := 0 }

/-- The host enumeration `IndexUniqueCheck`. -/
inductive IndexUniqueCheck where
  | UNIQUE_CHECK_NO
  | UNIQUE_CHECK_YES
  | UNIQUE_CHECK_PARTIAL
  | UNIQUE_CHECK_EXISTING
  deriving DecidableEq, Repr

/-- The host struct `IndexInfo`, the members `_bitmap_create_lov_heapandindex` assigns
to a value other than zero or `NULL`, and the expression and predicate lists.
`ii_IndexAttrNumbers` is an array of `INDEX_MAX_KEYS` attribute numbers. -/
structure IndexInfo where
  ii_NumIndexAttrs : Int
  ii_NumIndexKeyAttrs : Int
  ii_IndexAttrNumbers : List Nat
  ii_Expressions : List Nat
  ii_Predicate : List Nat
  ii_Unique : Bool
  ii_ParallelWorkers : Nat
  deriving DecidableEq, Repr

/-- The state of the loop of `_bitmap_create_lov_heapandindex`: the index info, the
operator classes assigned so far and the column names appended so far. -/
structure LovIndexColumns where
  indexInfo : IndexInfo
  classObjectId : List Nat
  indexColNames : List String
  deriving DecidableEq, Repr

/-- The loop of `_bitmap_create_lov_heapandindex` (bitmapattutil.c:154-163), for `i`
from its start value, `todo` iterations left. `GetDefaultOpClass` is the host's lookup
of the default btree operator class of a type. -/
def indexColumnsLoop (GetDefaultOpClass : Nat → Nat) (tupDesc : TupleDesc) :
    (todo : Nat) → (i : Nat) → LovIndexColumns → Except Fault LovIndexColumns
  | 0, _, st => Except.ok st
  | todo + 1, i, st => do
    let numbers ←
      (if i < st.indexInfo.ii_IndexAttrNumbers.length then
        Except.ok (st.indexInfo.ii_IndexAttrNumbers.set i (i + 1))
      else Except.error Fault.out_of_bounds : Except Fault (List Nat))
    let att ←
      (match tupDesc.get? i with
       | none => Except.error Fault.out_of_bounds
       | some none => Except.error Fault.uninitialised_read
       | some (some att) => Except.ok att : Except Fault FormData_pg_attribute)
    let typid := att.atttypid
    let attname := att.attname
    indexColumnsLoop GetDefaultOpClass tupDesc todo (i + 1)
      { indexInfo := { st.indexInfo with ii_IndexAttrNumbers := numbers }
        classObjectId := st.classObjectId ++ [GetDefaultOpClass typid]
        indexColNames := st.indexColNames ++ [attname] }

/-- What `_bitmap_create_lov_heapandindex` creates: the descriptor it passes to
`heap_create_with_catalog` for the LOV heap, and the index info, column names and
operator classes it passes to `index_create` for the btree index on that heap. -/
structure LovHeapAndIndex where
  heapTupDesc : TupleDesc
  indexInfo : IndexInfo
  indexColNames : List String
  classObjectId : List Nat
  deriving DecidableEq, Repr

/-- The routine `_bitmap_create_lov_heapandindex(rel, lovHeapId, lovIndexId)`
(bitmapattutil.c:44-189), `oldTupDesc` being `RelationGetDescr(rel)`. Its catalog
effects (relation names, removal of a previous LOV heap and index, dependency
records, assigned relation ids) are left to the host. -/
def _bitmap_create_lov_heapandindex (GetDefaultOpClass : Nat → Nat)
    (oldTupDesc : List FormData_pg_attribute) : Except Fault LovHeapAndIndex := do
  /- create a new empty heap to store all attribute values with their
     corresponding block number and offset in LOV. -/
  let tupDesc ← _bitmap_create_lov_heapTupleDesc oldTupDesc
  /- create a btree index on the newly-created heap.
     The key includes all attributes to be indexed in this bitmap index. -/
  let indattrs : Int := (tupDesc.length : Int) - 2
  let indexInfo : IndexInfo :=
    { ii_NumIndexAttrs := indattrs, ii_NumIndexKeyAttrs := indattrs,
      ii_IndexAttrNumbers := List.replicate INDEX_MAX_KEYS 0,
      ii_Expressions := [], ii_Predicate := [], ii_Unique := true,
      ii_ParallelWorkers := 0 }
  let st ← indexColumnsLoop GetDefaultOpClass tupDesc indattrs.toNat 0
    { indexInfo := indexInfo, classObjectId := [], indexColNames := [] }
  pure { heapTupDesc := tupDesc, indexInfo := st.indexInfo,
         indexColNames := st.indexColNames, classObjectId := st.classObjectId }

/-- What `_bitmap_insert_lov` hands to the host: the values and null flags of the
heap tuple it forms and inserts, and the key values, key null flags and uniqueness
check of its `index_insert` call. -/
structure LovInsert where
  heapDatum : List Nat
  heapNulls : List Bool
  indexDatum : List Nat
  indexNulls : List Bool
  checkUnique : IndexUniqueCheck
  deriving DecidableEq, Repr

/-- The routine `_bitmap_insert_lov(lovHeap, lovIndex, datum, nulls, use_wal)`
(bitmapattutil.c:250-280); `natts` is the attribute count of the LOV heap. -/
def _bitmap_insert_lov (natts : Nat) (datum : List Nat) (nulls : List Bool) :
    Except Fault LovInsert :=
  /- insert this tuple into the heap -/
  if natts ≤ datum.length ∧ natts ≤ nulls.length then
    /- insert a new tuple into the index -/
    if 2 ≤ natts then
      let indexDatum := datum.take (natts - 2) ++ (List.replicate (natts - 2) 0).drop (natts - 2)
      let indexNulls :=
        nulls.take (natts - 2) ++ (List.replicate (natts - 2) false).drop (natts - 2)
      Except.ok { heapDatum := datum.take natts, heapNulls := nulls.take natts,
                  indexDatum := indexDatum, indexNulls := indexNulls,
                  checkUnique := IndexUniqueCheck.UNIQUE_CHECK_YES }
    else Except.error (Fault.error "invalid memory alloc request size")
  else Except.error Fault.out_of_bounds

/-- An operator class lookup for examples: the class of type `t` is `t + 1000`. -/
def sampleOpClass (typid : Nat) : Nat := typid + 1000

/-- The host macro `DatumGetInt32`: the low 32 bits of a datum as a signed integer
(4294967296 is `2 ^ 32`). -/
def DatumGetInt32 (d : Nat) : Int :=
  if d % 4294967296 < 2147483648 then (d % 4294967296 : Nat)
  else ((d % 4294967296 : Nat) : Int) - 4294967296

/-- The host macro `DatumGetInt16`: the low 16 bits of a datum as a signed integer. -/
def DatumGetInt16 (d : Nat) : Int :=
  if d % 65536 < 32768 then (d % 65536 : Nat) else ((d % 65536 : Nat) : Int) - 65536

/-- The conversion of an integer to `BlockNumber` (an unsigned 32-bit integer) that the
assignment `*lovBlock = ...` makes. -/
def toBlockNumber (x : Int) : Nat := (x % 4294967296).toNat

/-- The conversion of an integer to `OffsetNumber` (an unsigned 16-bit integer) that the
assignment `*lovOffset = ...` makes. -/
def toOffsetNumber (x : Int) : Nat := (x % 65536).toNat

/-- The host macro `Int32GetDatum`: a signed 32-bit integer, sign-extended to a 64-bit
datum. -/
def Int32GetDatum (x : Int) : Nat := (x % 18446744073709551616).toNat

/-- A heap tuple: the datum of each of its columns, `none` for a NULL column. -/
abbrev HeapTuple : Type := List (Option Nat)

/-- The host routine `heap_getattr(tuple, attnum, tupleDesc, isnull)` for a user
attribute (`attnum` at least 1): the datum of the column and the null flag; a column
the tuple does not have reads as NULL. -/
def heap_getattr (tuple : HeapTuple) (attnum : Nat) : Nat × Bool :=
  if attnum = 0 then (0, true)
  else
    match tuple.get? (attnum - 1) with
    | some (some d) => (d, false)
    | _ => (0, true)

/-- The four output parameters of `_bitmap_findvalue`. -/
structure FindValueOutputs where
  lovBlock : Nat
  blockNull : Bool
  lovOffset : Nat
  offsetNull : Bool
  deriving DecidableEq, Repr

/-- The routine `_bitmap_findvalue` (bitmapattutil.c:306-339). `lovIndexNatts` is
`RelationGetDescr(lovIndex)->natts`, `row` is what `index_getnext_slot` yields (`none`
when it returns false), `out` holds the output parameters as the caller passed
them. -/
def _bitmap_findvalue (lovIndexNatts : Nat) (row : Option HeapTuple)
    (out : FindValueOutputs) : Bool × FindValueOutputs :=
  match row with
  | some tuple =>
    let (d, blockNull) := heap_getattr tuple (lovIndexNatts + 1)
    let lovBlock := toBlockNumber (DatumGetInt32 d)
    let (d2, offsetNull) := heap_getattr tuple (lovIndexNatts + 2)
    let lovOffset := toOffsetNumber (DatumGetInt16 d2)
    (true, { lovBlock := lovBlock, blockNull := blockNull, lovOffset := lovOffset,
             offsetNull := offsetNull })
  | none => (false, out)

/-! ## Section 8: `bmbulkdelete_internal` -/

/-- The host struct `IndexBulkDeleteResult`; the two tuple counts are C doubles used
as counters. -/
structure IndexBulkDeleteResult where
  num_pages : Nat
  estimated_count : Bool
  num_index_tuples : Nat
  tuples_removed : Nat
  pages_newly_deleted : Nat
  pages_deleted : Nat
  pages_free : Nat
  deriving DecidableEq, Repr

/-- The memory and relations a vacuum works on: the heap of `IndexBulkDeleteResult`
structs (address `a` is entry `a`), the block count of the index
(`RelationGetNumberOfBlocks(info->index)`) and `info->num_heap_tuples`. -/
structure VacuumWorld where
  statsHeap : List IndexBulkDeleteResult
  nblocks : Nat
  num_heap_tuples : Nat
  deriving DecidableEq, Repr

/-- The call `palloc0(sizeof(IndexBulkDeleteResult))`: a new zeroed struct. -/
def VacuumWorld.palloc0Stats (w : VacuumWorld) : Nat × VacuumWorld :=
  (w.statsHeap.length,
    { w with statsHeap := w.statsHeap ++ [⟨0, false, 0, 0, 0, 0, 0⟩] })

/-- An assignment to members of `*stats`. -/
def VacuumWorld.assignStats (w : VacuumWorld) (stats : Nat)
    (f : IndexBulkDeleteResult → IndexBulkDeleteResult) : Except Fault VacuumWorld :=
  match w.statsHeap.get? stats with
  | none => Except.error Fault.invalid_pointer
  | some r => Except.ok { w with statsHeap := w.statsHeap.set stats (f r) }

/-- The routine `bmbulkdelete_internal(info, stats, callback, callback_state)`
(bitmap.c:501-522): the pointer it returns and the world it leaves. `_bitmap_vacuum`
is the routine of that name, given the `stats` pointer it is passed. -/
def bmbulkdelete_internal (_bitmap_vacuum : Nat → VacuumWorld → Except Fault VacuumWorld)
    (stats : Ptr) (w : VacuumWorld) : Except Fault (Nat × VacuumWorld) := do
  /- allocate stats if first time through, else re-use existing struct -/
  let (_, w1) :=
    match stats with
    | none => w.palloc0Stats
    | some p => (p, w)
  /- stats = (IndexBulkDeleteResult *) palloc0(sizeof(IndexBulkDeleteResult)); -/
  let (stats2, w2) := w1.palloc0Stats
  let w3 ← _bitmap_vacuum stats2 w2
  let w4 ← w3.assignStats stats2 (fun r => { r with num_pages := w3.nblocks })
  /- Since we re-build the index, set this to number of heap tuples. -/
  let w5 ← w4.assignStats stats2 (fun r => { r with num_index_tuples := w4.num_heap_tuples })
  let w6 ← w5.assignStats stats2 (fun r => { r with tuples_removed := 0 })
  pure (stats2, w6)

/-- The routine `bmvacuumcleanup_internal(info, stats)` (bitmap.c:529-545). -/
def bmvacuumcleanup_internal (stats : Ptr) (w : VacuumWorld) :
    Except Fault (Nat × VacuumWorld) := do
  let (stats1, w1) :=
    match stats with
    | none => w.palloc0Stats
    | some p => (p, w)
  /- update statistics -/
  let w2 ← w1.assignStats stats1 (fun r => { r with num_pages := w1.nblocks })
  let w3 ← w2.assignStats stats1 (fun r => { r with pages_deleted := 0 })
  let w4 ← w3.assignStats stats1 (fun r => { r with pages_free := 0 })
  let w5 ← w4.assignStats stats1 (fun r => { r with num_index_tuples := w4.num_heap_tuples })
  pure (stats1, w5)

/-- A vacuum in progress: the caller holds one statistics struct (address 0) that
already records 9 pages, 3 removed tuples, 5 deleted and 2 free pages; the index has
12 blocks and the heap 100 tuples. -/
def vacuumInProgress : VacuumWorld :=
  { statsHeap := [⟨9, true, 100, 3, 1, 5, 2⟩], nblocks := 12, num_heap_tuples := 100 }

/-! ## Section 9: the page chain walk of `iovitemdetail` -/

/-- The loop `while (bitmap_blkno != InvalidBlockNumber && bitmap_blkno <=
bitmap_blkno_end)` of `iovitemdetail` (yabit.c:324-396): the blocks it reads, in
order. `bm_bitmap_next` gives the next-page link stored on the page of a block. The
fuel bounds the number of evaluations of the loop condition; `none` means it ran
out. -/
def iovitemdetail_walk (bm_bitmap_next : Nat → Nat) (bitmap_blkno_end : Nat) :
    Nat → Nat → Option (List Nat)
  | 0, _ => none
  | fuel + 1, bitmap_blkno =>
    if bitmap_blkno ≠ InvalidBlockNumber ∧ bitmap_blkno ≤ bitmap_blkno_end then
      let next_blkno := bm_bitmap_next bitmap_blkno
      (iovitemdetail_walk bm_bitmap_next bitmap_blkno_end fuel next_blkno).map
        (fun visited => bitmap_blkno :: visited)
    else some []

/-- The part "Read bitmap vector pages" of `iovitemdetail` (yabit.c:317-397) for a LOV
item with the given head and tail: the blocks of bitmap vector pages it reads, in
order. -/
def iovitemdetail_pages (bm_bitmap_next : Nat → Nat) (bm_lov_head bm_lov_tail : Nat)
    (fuel : Nat) : Option (List Nat) :=
  if bm_lov_head ≠ InvalidBlockNumber then
    iovitemdetail_walk bm_bitmap_next bm_lov_tail fuel bm_lov_head
  else some []

/-- The next-page links of a vector stored on blocks 2, 5 and 9. -/
def sampleChainNext (blkno : Nat) : Nat :=
  if blkno = 2 then 5 else if blkno = 5 then 9 else InvalidBlockNumber

/-! ## Section 10: `read_positions` -/

/-- Two's complement wrap-around of a C `int` (32 bits). -/
def wrapInt32 (x : Int) : Int := (x + 2147483648) % 4294967296 - 2147483648

/-- The host constant `MaxAllocSize` (1 GB - 1), the largest request `palloc` and
`repalloc` accept. -/
def MaxAllocSize : Nat := 1073741823

/-- The request size `capacity * sizeof(int)`, computed in `size_t` (64 bits) from the
`int` capacity. -/
def allocRequest (capacity : Int) : Nat :=
  ((capacity % 18446744073709551616).toNat * 4) % 18446744073709551616

/-- The ways `read_positions` can fail to return. -/
inductive ReadError where
  /-- The error `ereport(ERROR, "Could not open file")`. -/
  | could_not_open_file
  /-- A store to `positions[*count]` outside the allocated array. -/
  | store_out_of_bounds
  /-- The host's "invalid memory alloc request size" error of `repalloc`. -/
  | invalid_alloc_request
  deriving DecidableEq, Repr

/-- The result of `read_positions`: `*count`, the final capacity and the array. -/
structure ReadPositions where
  count : Int
  capacity : Int
  positions : List Int
  deriving DecidableEq, Repr

/-- The loop of `read_positions` (yabit.c:146-153). The first argument is the sequence
of integers `fscanf(file, "%d", ...)` still parses before it first fails; the array is
the list of its elements, its length being the allocated number of elements. -/
def read_positions_loop : List Int → Int → Int → List Int → Except ReadError ReadPositions
  | [], count, capacity, positions => Except.ok ⟨count, capacity, positions⟩
  | value :: rest, count, capacity, positions =>
    if 0 ≤ count ∧ count.toNat < positions.length then
      let positions1 := positions.set count.toNat value
      let count1 := wrapInt32 (count + 1)
      if count1 ≥ capacity then
        let capacity1 := wrapInt32 (capacity * 2)
        if allocRequest capacity1 ≤ MaxAllocSize then
          let positions2 := positions1.take (allocRequest capacity1 / 4) ++
            List.replicate (allocRequest capacity1 / 4 - positions1.length) 0
          read_positions_loop rest count1 capacity1 positions2
        else Except.error ReadError.invalid_alloc_request
      else read_positions_loop rest count1 capacity positions1
    else Except.error ReadError.store_out_of_bounds

/-- The routine `read_positions(filename, count)` (yabit.c:132-157). `file` is `none`
when the file cannot be opened, otherwise the integers it parses to. -/
def read_positions (file : Option (List Int)) : Except ReadError ReadPositions :=
  match file with
  | none => Except.error ReadError.could_not_open_file
  | some values =>
    let count : Int := 0
    let capacity : Int := 1000
    let positions : List Int := List.replicate (allocRequest capacity / 4) 0
    read_positions_loop values count capacity positions

/-! ## Section 11: `word_to_binary` -/

/-- The statement `*ptr++ = c` on a buffer of `capacity` bytes of which the first
`written.length` have been written: a store past the end of the buffer is a fault. -/
def bufferPut (capacity : Nat) (written : List Char) (c : Char) :
    Except Fault (List Char) :=
  if written.length < capacity then Except.ok (written ++ [c])
  else Except.error Fault.out_of_bounds

/-- The loop of `word_to_binary` (yabit.c:259-266). `BM_WORD_SIZE` is the constant of
that name of `bitmap.h` (not among the sources). In the case `i + 1` the loop variable
has the value `i`; the loop ends after the iteration with `i = 0`. -/
def word_to_binary_loop (BM_WORD_SIZE word capacity : Nat) :
    Nat → List Char → Except Fault (List Char)
  | 0, written => Except.ok written
  | i + 1, written => do
    let written1 ←
      (if i ≠ BM_WORD_SIZE - 1 ∧ (i + 1) % 4 = 0 then bufferPut capacity written ' '
       else pure written : Except Fault (List Char))
    let written2 ← bufferPut capacity written1 (if (word >>> i) &&& 1 ≠ 0 then '1' else '0')
    word_to_binary_loop BM_WORD_SIZE word capacity i written2

/-- The routine `word_to_binary(word)` (yabit.c:251-270) for the word size
`BM_WORD_SIZE`: the string it returns, that is the characters written before the
terminator. -/
def word_to_binary (BM_WORD_SIZE word : Nat) : Except Fault (List Char) := do
  let capacity := BM_WORD_SIZE + 1 + BM_WORD_SIZE / 4
  let written ← word_to_binary_loop BM_WORD_SIZE word capacity BM_WORD_SIZE []
  let _ ← bufferPut capacity written (Char.ofNat 0)
  pure written

/-- Groups of characters joined with exactly one space between consecutive groups and
none at either end. -/
def joinWithSpaces : List (List Char) → List Char
  | [] => []
  | [g] => g
  | g :: h :: rest => g ++ ' ' :: joinWithSpaces (h :: rest)

/-- The number a string of binary digits denotes, most significant digit first. -/
def binaryValue (digits : List Char) : Nat :=
  digits.foldl (fun v c => 2 * v + (if c = '1' then 1 else 0)) 0

/-- The digit of bit `i` of `word`. -/
def bitChar (word i : Nat) : Char := if (word >>> i) &&& 1 ≠ 0 then '1' else '0'

/-- The four digits of group `m` of `word` (bits `4 m + 3` down to `4 m`). -/
def bitGroup (word m : Nat) : List Char :=
  [bitChar word (4 * m + 3), bitChar word (4 * m + 2), bitChar word (4 * m + 1),
   bitChar word (4 * m)]

/-- The groups `m - 1`, ..., 0 of `word`, the most significant first. -/
def bitGroups (word : Nat) : Nat → List (List Char)
  | 0 => []
  | m + 1 => bitGroup word m :: bitGroups word m

/-- Groups of characters, each preceded by one space. -/
def spacedGroups : List (List Char) → List Char
  | [] => []
  | g :: rest => ' ' :: g ++ spacedGroups rest

/-! ## Theorems -/

theorem afterNext_succ_eq {σ τ : Type} (E : ScanSteps σ τ) (s : σ) :
    ∀ i, afterNext E (i + 1) s = afterNext E i (E._bitmap_next s).2 := by
  intro i
  induction i with
  | zero => rfl
  | succ j ih =>
    show (E._bitmap_next (afterNext E (j + 1) s)).2 = _
    rw [ih]
    rfl

theorem exhaustedAtCall_tail {σ τ : Type} (E : ScanSteps σ τ) (s : σ) (k : Nat)
    (h : exhaustedAtCall E s (k + 1)) :
    (E._bitmap_next s).1 = true ∧ exhaustedAtCall E (E._bitmap_next s).2 k := by
  obtain ⟨hlt, hlast⟩ := h
  refine ⟨hlt 0 (Nat.succ_pos k), ?_, ?_⟩
  · intro i hi
    rw [← afterNext_succ_eq]
    exact hlt (i + 1) (Nat.succ_lt_succ hi)
  · rw [← afterNext_succ_eq]
    exact hlast

theorem wrapInt64_of_lt (n : Nat) (h : n < 2 ^ 63) : wrapInt64 (n : Int) = (n : Int) := by
  unfold wrapInt64
  have h1 : (0 : Int) ≤ (n : Int) + 2 ^ 63 := by positivity
  have h2 : (n : Int) + 2 ^ 63 < 2 ^ 64 := by
    have : (n : Int) < 2 ^ 63 := by exact_mod_cast h
    omega
  rw [Int.emod_eq_of_lt h1 h2]
  omega

theorem map_afterNext_range_succ {σ τ : Type} (E : ScanSteps σ τ) (s : σ) (k : Nat) :
    (List.range (k + 1)).map (fun i => E.xs_heaptid (afterNext E (i + 1) s)) =
      E.xs_heaptid (E._bitmap_next s).2 ::
        (List.range k).map (fun i => E.xs_heaptid (afterNext E (i + 1) (E._bitmap_next s).2)) := by
  rw [List.range_succ_eq_map, List.map_cons, List.map_map]
  refine congrArg₂ List.cons rfl ?_
  apply List.map_congr_left
  intro i _
  simp only [Function.comp]
  rw [afterNext_succ_eq E s (i + 1)]

theorem bmgetbitmap_loop_spec {σ τ : Type} (E : ScanSteps σ τ) (k : Nat) :
    ∀ (s : σ) (tbm : List τ) (n : Nat) (fuel : Nat),
      exhaustedAtCall E s k → n + k < 2 ^ 63 → k < fuel →
      bmgetbitmap_loop E fuel s tbm (n : Int) =
        some ⟨((n + k : Nat) : Int),
          tbm ++ (List.range k).map (fun i => E.xs_heaptid (afterNext E (i + 1) s)),
          (E._bitmap_next (afterNext E k s)).2⟩ := by
  induction k with
  | zero =>
    intro s tbm n fuel hex _ hfuel
    obtain ⟨fuel, rfl⟩ : ∃ f, fuel = f + 1 := ⟨fuel - 1, by omega⟩
    have hlast : (E._bitmap_next s).1 = false := hex.2
    unfold bmgetbitmap_loop
    rcases hn : E._bitmap_next s with ⟨b, s1⟩
    rw [hn] at hlast
    simp only at hlast
    subst hlast
    simp [afterNext, hn]
  | succ k ih =>
    intro s tbm n fuel hex hbound hfuel
    obtain ⟨fuel, rfl⟩ : ∃ f, fuel = f + 1 := ⟨fuel - 1, by omega⟩
    obtain ⟨hfirst, htail⟩ := exhaustedAtCall_tail E s k hex
    unfold bmgetbitmap_loop
    rcases hn : E._bitmap_next s with ⟨b, s1⟩
    rw [hn] at hfirst htail
    simp only at hfirst htail
    subst hfirst
    simp only
    have hw : wrapInt64 ((n : Int) + 1) = ((n + 1 : Nat) : Int) := by
      have := wrapInt64_of_lt (n + 1) (by omega)
      simpa using this
    rw [hw, ih s1 (tbm_add_tuples tbm (E.xs_heaptid s1)) (n + 1) fuel htail (by omega) (by omega)]
    have hs1 : s1 = (E._bitmap_next s).2 := by rw [hn]
    have hmap := map_afterNext_range_succ E s k
    rw [← hs1] at hmap
    rw [hmap]
    have e1 : n + 1 + k = n + (k + 1) := by omega
    have e2 : afterNext E (k + 1) s = afterNext E k s1 := by
      rw [afterNext_succ_eq, ← hs1]
    simp [tbm_add_tuples, e1, e2]

theorem bmgetbitmap_loop_tbm_length {σ τ : Type} (E : ScanSteps σ τ) :
    ∀ (fuel : Nat) (s : σ) (tbm : List τ) (n : Int) (r : GetBitmapResult σ τ),
      bmgetbitmap_loop E fuel s tbm n = some r → tbm.length ≤ r.tbm.length := by
  intro fuel
  induction fuel with
  | zero => intro s tbm n r h; simp [bmgetbitmap_loop] at h
  | succ fuel ih =>
    intro s tbm n r h
    unfold bmgetbitmap_loop at h
    rcases hn : E._bitmap_next s with ⟨b, s1⟩
    rw [hn] at h
    cases b with
    | false =>
      simp only [Option.some.injEq] at h
      subst h
      exact Nat.le_refl _
    | true =>
      simp only at h
      have := ih _ _ _ _ h
      simp [tbm_add_tuples] at this
      omega

/-- C1: `bmgetbitmap_internal` is one `first` followed by repeated `next` until the
first call that reports exhaustion. When `first` reports no set bit it returns 0 and
leaves the TID bitmap as it was; when `first` produced a RID and call `k + 1` of
`next` is the first to report exhaustion (with fuel for these calls and the count
staying in the range of the 64-bit counter), it returns `k + 1` and has appended to
the TID bitmap exactly the `k + 1` RIDs produced, each once and in the order
produced; and whenever it returns, "returned 0 and added nothing" holds exactly when
`first` reported no set bit. -/
theorem bmgetbitmap_internal_refines_produce_all {σ τ : Type} (E : ScanSteps σ τ)
    (scan : σ) (tbm : List τ) (fuel : Nat) :
    ((E._bitmap_first scan).1 = false →
        bmgetbitmap_internal E fuel scan tbm = some ⟨0, tbm, (E._bitmap_first scan).2⟩) ∧
    (∀ k, (E._bitmap_first scan).1 = true → exhaustedAtCall E (E._bitmap_first scan).2 k →
        k < fuel → k + 1 < 2 ^ 63 →
        bmgetbitmap_internal E fuel scan tbm =
          some ⟨((k + 1 : Nat) : Int), tbm ++ produce_all E (E._bitmap_first scan).2 k,
            (E._bitmap_next (afterNext E k (E._bitmap_first scan).2)).2⟩) ∧
    (∀ r, bmgetbitmap_internal E fuel scan tbm = some r →
        ((r.ntids = 0 ∧ r.tbm = tbm) ↔ (E._bitmap_first scan).1 = false)) := by
  rcases hf : E._bitmap_first scan with ⟨b, s1⟩
  refine ⟨?_, ?_, ?_⟩
  · intro hb
    simp only at hb
    subst hb
    simp [bmgetbitmap_internal, hf]
  · intro k hb hex hfuel hk
    simp only at hb hex
    subst hb
    have h := bmgetbitmap_loop_spec E k s1 (tbm_add_tuples tbm (E.xs_heaptid s1)) 1 fuel hex
      (by omega) hfuel
    have hw : wrapInt64 (0 + 1) = ((1 : Nat) : Int) := by
      have := wrapInt64_of_lt 1 (by norm_num)
      simpa using this
    simp only [bmgetbitmap_internal, hf, hw, h]
    have hr : produce_all E s1 k =
        E.xs_heaptid s1 :: (List.range k).map (fun i => E.xs_heaptid (afterNext E (i + 1) s1)) := by
      unfold produce_all
      rw [List.range_succ_eq_map, List.map_cons, List.map_map]
      rfl
    have e1 : 1 + k = k + 1 := by omega
    simp [hr, tbm_add_tuples, e1]
  · intro r hr
    cases b with
    | false =>
      simp only [bmgetbitmap_internal, hf, Option.some.injEq] at hr
      subst hr
      simp
    | true =>
      simp only [bmgetbitmap_internal, hf] at hr
      have hlen := bmgetbitmap_loop_tbm_length E _ _ _ _ _ hr
      simp only [tbm_add_tuples, List.length_append, List.length_singleton] at hlen
      constructor
      · rintro ⟨_, htbm⟩
        rw [htbm] at hlen
        omega
      · intro h
        simp at h

/-- C1 (witness): a vector with bits {3, 4, 5, 1000} yields the four RIDs
3, 4, 5, 1000 and the return value 4. -/
theorem bmgetbitmap_internal_refines_produce_all_witness :
    exhaustedAtCall vectorScanSteps (vectorScanSteps._bitmap_first ⟨[3, 4, 5, 1000], 0⟩).2 3 ∧
    produce_all vectorScanSteps (vectorScanSteps._bitmap_first ⟨[3, 4, 5, 1000], 0⟩).2 3 =
      [3, 4, 5, 1000] ∧
    bmgetbitmap_internal vectorScanSteps 4 ⟨[3, 4, 5, 1000], 0⟩ [] =
      some ⟨((3 + 1 : Nat) : Int),
        [] ++ produce_all vectorScanSteps (vectorScanSteps._bitmap_first ⟨[3, 4, 5, 1000], 0⟩).2 3,
        (vectorScanSteps._bitmap_next
          (afterNext vectorScanSteps 3 (vectorScanSteps._bitmap_first ⟨[3, 4, 5, 1000], 0⟩).2)).2⟩ :=
  ⟨by decide, by decide,
    (bmgetbitmap_internal_refines_produce_all vectorScanSteps ⟨[3, 4, 5, 1000], 0⟩ [] 4).2.1 3
      rfl (by decide) (by decide) (by norm_num)⟩

/-- C2: for every index whose block count is not zero `bmbuild_internal` ends with
its "index already contains data" error and leaves the world exactly as it found it,
whatever the routines it would have called do (none of them is run); for an index
with zero blocks it never ends with that error. -/
theorem bmbuild_internal_nonempty_index_fails {W ρ β Row ε : Type}
    (env : BuildEnv W ρ β Row ε) (heap index : ρ) (w : W) :
    (env.RelationGetNumberOfBlocks index w ≠ 0 →
        bmbuild_internal env heap index w =
          (Except.error BuildError.index_already_contains_data, w)) ∧
    (env.RelationGetNumberOfBlocks index w = 0 →
        (bmbuild_internal env heap index w).1 ≠
          Except.error BuildError.index_already_contains_data) := by
  constructor
  · intro h
    simp [bmbuild_internal, h]
  · intro h
    simp only [bmbuild_internal, h, ne_eq, not_true_eq_false, if_false]
    rcases (bmbuild_after_check env heap index).exec w with ⟨r, w1⟩
    cases r <;> simp

/-- C2 (witness): building over an index of 3 blocks fails and records no call;
building over an empty index runs the whole build. -/
theorem bmbuild_internal_nonempty_index_fails_witness :
    bmbuild_internal traceEnv "heap" "index" ⟨3, [10, 11], []⟩ =
        (Except.error BuildError.index_already_contains_data, ⟨3, [10, 11], []⟩) ∧
    (bmbuild_internal traceEnv "heap" "index" ⟨0, [10, 11], []⟩).1 ≠
        Except.error BuildError.index_already_contains_data ∧
    (bmbuild_internal traceEnv "heap" "index" ⟨0, [10, 11], []⟩).1 = Except.ok ⟨2, 2⟩ :=
  ⟨(bmbuild_internal_nonempty_index_fails traceEnv "heap" "index" ⟨3, [10, 11], []⟩).1
      (by decide),
    (bmbuild_internal_nonempty_index_fails traceEnv "heap" "index" ⟨0, [10, 11], []⟩).2 rfl,
    by rfl⟩

theorem PageAddItem_fresh_lov_page {ι : Type} (item : ι) (size : Nat)
    (hfit : MAXALIGN size + (SizeOfPageHeaderData + sizeofItemIdData) ≤ BLCKSZ) :
    PageAddItem (PageInit BLCKSZ 0) item size =
      Except.ok (1, { pd_lower := 28, pd_upper := 8192 - MAXALIGN size, pd_special := 8192,
                      items := [item], contents := none, special := none }) := by
  simp only [BLCKSZ, SizeOfPageHeaderData, sizeofItemIdData] at hfit
  have h0 : MAXALIGN 0 = 0 := by decide
  have hlow : ¬ ((24 : Int) + 4 > (8192 : Int) - (MAXALIGN size : Int)) := by omega
  have hup : ((8192 : Int) - (MAXALIGN size : Int)).toNat = 8192 - MAXALIGN size := by omega
  simp only [PageAddItem, PageInit, PageGetMaxOffsetNumber, BLCKSZ, SizeOfPageHeaderData,
    sizeofItemIdData, h0]
  norm_num
  have hlt : ¬ ((8192 : Int) - (MAXALIGN size : Int) < 28) := by omega
  rw [if_neg hlt]
  rfl

theorem bmbuildempty_internal_eq {ι : Type} (D : BitmapDecls ι)
    (hfit : MAXALIGN D.sizeof_BMLOVItemData + (SizeOfPageHeaderData + sizeofItemIdData) ≤
      BLCKSZ) :
    bmbuildempty_internal D =
      Except.ok
        [(BM_METAPAGE,
          ({ (PageInit BLCKSZ D.sizeof_BMPageOpaqueData : Page ι) with
              special := some ⟨0, InvalidBlockNumber, 0, D.BM_PAGE_ID⟩,
              contents := some ⟨InvalidOid, InvalidOid, BM_LOV_STARTPAGE⟩ } : Page ι)),
         (BM_LOV_STARTPAGE,
          (⟨28, 8192 - MAXALIGN D.sizeof_BMLOVItemData, 8192, [D._bitmap_formitem 0],
            none, none⟩ : Page ι))] := by
  have hadd := PageAddItem_fresh_lov_page (D._bitmap_formitem 0) D.sizeof_BMLOVItemData hfit
  simp only [bmbuildempty_internal, hadd]
  rfl

/-- C3: when a LOV item fits an empty page, `bmbuildempty_internal` writes exactly two
pages, in this order: the meta page at block 0, whose auxiliary-table id and
auxiliary-index id are the invalid id and which holds no item, and one LOV page at
block 1 that holds exactly one item, the one `_bitmap_formitem(0)` forms (the
placeholder for NULL). -/
theorem bmbuildempty_internal_writes_two_pages {ι : Type} (D : BitmapDecls ι)
    (hfit : MAXALIGN D.sizeof_BMLOVItemData + (SizeOfPageHeaderData + sizeofItemIdData) ≤
      BLCKSZ) :
    ∃ (metapage lovpage : Page ι) (metadata : BMMetaPageData),
      bmbuildempty_internal D = Except.ok [(0, metapage), (1, lovpage)] ∧
      metapage.contents = some metadata ∧
      metadata.bm_lov_heapId = InvalidOid ∧ metadata.bm_lov_indexId = InvalidOid ∧
      metapage.items = [] ∧
      lovpage.items = [D._bitmap_formitem 0] ∧ lovpage.contents = none := by
  exact ⟨_, _, _, bmbuildempty_internal_eq D hfit, rfl, rfl, rfl, rfl, rfl, rfl⟩

/-- C3 (witness): with a 40-byte LOV item the two pages are written. -/
theorem bmbuildempty_internal_writes_two_pages_witness :
    MAXALIGN sampleDecls.sizeof_BMLOVItemData + (SizeOfPageHeaderData + sizeofItemIdData) ≤
      BLCKSZ ∧
    ∃ (metapage lovpage : Page PlaceholderItem) (metadata : BMMetaPageData),
      bmbuildempty_internal sampleDecls = Except.ok [(0, metapage), (1, lovpage)] ∧
      metapage.contents = some metadata ∧
      metadata.bm_lov_heapId = InvalidOid ∧ metadata.bm_lov_indexId = InvalidOid ∧
      metapage.items = [] ∧
      lovpage.items = [sampleDecls._bitmap_formitem 0] ∧ lovpage.contents = none :=
  ⟨by decide, bmbuildempty_internal_writes_two_pages sampleDecls (by decide)⟩

/-- C4 (counterexample): in the meta page `bmbuildempty_internal` writes, the
last-LOV-page field is not unset: it is 1, which is not the invalid block number and
is the block of the LOV page written by the same call. -/
theorem bmbuildempty_internal_lov_pointer_not_unset :
    ∃ (pages : List (Nat × Page PlaceholderItem)) (metapage : Page PlaceholderItem)
      (metadata : BMMetaPageData),
      bmbuildempty_internal sampleDecls = Except.ok pages ∧
      List.lookup BM_METAPAGE pages = some metapage ∧
      metapage.contents = some metadata ∧
      metadata.bm_lov_lastpage = 1 ∧
      metadata.bm_lov_lastpage ≠ InvalidBlockNumber ∧
      (List.lookup metadata.bm_lov_lastpage pages).isSome = true :=
  ⟨_, _, _, rfl, rfl, rfl, rfl, by decide, rfl⟩

/-- C4 (amended): when a LOV item fits an empty page, in the meta page
`bmbuildempty_internal` writes the word-stream bookkeeping is zeroed (words-used count
0, last-RID location 0, next-page link the "no next page" sentinel) and the
last-LOV-page field is `BM_LOV_STARTPAGE`, the block of the LOV page the same call
writes. -/
theorem bmbuildempty_internal_meta_page_bookkeeping {ι : Type} (D : BitmapDecls ι)
    (hfit : MAXALIGN D.sizeof_BMLOVItemData + (SizeOfPageHeaderData + sizeofItemIdData) ≤
      BLCKSZ) :
    ∃ (pages : List (Nat × Page ι)) (metapage lovpage : Page ι)
      (specialData : BMPageOpaqueData) (metadata : BMMetaPageData),
      bmbuildempty_internal D = Except.ok pages ∧
      List.lookup BM_METAPAGE pages = some metapage ∧
      metapage.special = some specialData ∧
      specialData.bm_hrl_words_used = 0 ∧
      specialData.bm_last_tid_location = 0 ∧
      specialData.bm_bitmap_next = InvalidBlockNumber ∧
      metapage.contents = some metadata ∧
      metadata.bm_lov_lastpage = BM_LOV_STARTPAGE ∧
      List.lookup metadata.bm_lov_lastpage pages = some lovpage ∧
      lovpage.items = [D._bitmap_formitem 0] := by
  exact ⟨_, _, _, _, _, bmbuildempty_internal_eq D hfit, rfl, rfl, rfl, rfl, rfl, rfl, rfl,
    rfl, rfl⟩

/-- C4 (witness): the amended statement at a 40-byte LOV item. -/
theorem bmbuildempty_internal_meta_page_bookkeeping_witness :
    MAXALIGN sampleDecls.sizeof_BMLOVItemData + (SizeOfPageHeaderData + sizeofItemIdData) ≤
      BLCKSZ ∧
    ∃ (pages : List (Nat × Page PlaceholderItem)) (metapage lovpage : Page PlaceholderItem)
      (specialData : BMPageOpaqueData) (metadata : BMMetaPageData),
      bmbuildempty_internal sampleDecls = Except.ok pages ∧
      List.lookup BM_METAPAGE pages = some metapage ∧
      metapage.special = some specialData ∧
      specialData.bm_hrl_words_used = 0 ∧
      specialData.bm_last_tid_location = 0 ∧
      specialData.bm_bitmap_next = InvalidBlockNumber ∧
      metapage.contents = some metadata ∧
      metadata.bm_lov_lastpage = BM_LOV_STARTPAGE ∧
      List.lookup metadata.bm_lov_lastpage pages = some lovpage ∧
      lovpage.items = [sampleDecls._bitmap_formitem 0] :=
  ⟨by decide, bmbuildempty_internal_meta_page_bookkeeping sampleDecls (by decide)⟩

theorem invalidated_of_not_valid (v : BMVectorData) (h : BufferIsValid v.bm_lovBuffer = false) :
    invalidated v = v := by
  cases v with
  | mk b bw o =>
    simp only [BufferIsValid, bne_eq_false_iff_eq, beq_iff_eq] at h
    simp only [invalidated]
    rw [← h]

theorem releaseAndInvalidateLoop_ok (a : Nat) :
    ∀ (todo i : Nat) (w : ScanWorld) (arr : List BMVectorData),
      w.vectors.get? a = some arr → i + todo ≤ arr.length →
      (validBuffers ((arr.drop i).take todo)).Subperm w.pins →
      ∃ (w1 : ScanWorld) (arr1 : List BMVectorData),
        releaseAndInvalidateLoop (some a) todo i w = Except.ok w1 ∧
        w1.so = w.so ∧ w1.positions = w.positions ∧
        w1.pins = w.pins.diff (validBuffers ((arr.drop i).take todo)) ∧
        w1.vectors.get? a = some arr1 ∧ arr1.length = arr.length ∧
        ∀ j, arr1.get? j =
          if i ≤ j ∧ j < i + todo then (arr.get? j).map invalidated else arr.get? j := by
  intro todo
  induction todo with
  | zero =>
    intro i w arr h _ _
    refine ⟨w, arr, rfl, rfl, rfl, ?_, h, rfl, ?_⟩
    · simp [validBuffers]
    · intro j
      have : ¬ (i ≤ j ∧ j < i + 0) := by omega
      rw [if_neg this]
  | succ todo ih =>
    intro i w arr h hlen hsub
    have hi : i < arr.length := by omega
    have hdrop : arr.drop i = arr[i] :: arr.drop (i + 1) := List.drop_eq_getElem_cons hi
    have hv : arr.get? i = some arr[i] := by simp [List.getElem?_eq_getElem hi]
    have ha : a < w.vectors.length := by
      by_contra hc
      have : w.vectors.get? a = none := by simp; omega
      rw [this] at h
      exact absurd h (by simp)
    rw [hdrop, List.take_succ_cons] at hsub
    cases hvalid : BufferIsValid arr[i].bm_lovBuffer with
    | true =>
      have hvb : validBuffers (arr[i] :: (arr.drop (i + 1)).take todo) =
          arr[i].bm_lovBuffer :: validBuffers ((arr.drop (i + 1)).take todo) := by
        simp [validBuffers, hvalid]
      rw [hvb] at hsub
      have hmem : arr[i].bm_lovBuffer ∈ w.pins := hsub.subset (List.mem_cons_self _ _)
      have hsub1 := hsub.erase arr[i].bm_lovBuffer
      rw [List.erase_cons_head] at hsub1
      have hdrop1 : ((arr.set i (invalidated arr[i])).drop (i + 1)) = arr.drop (i + 1) :=
        List.drop_set_of_lt _ _ (Nat.lt_succ_self i)
      obtain ⟨w1, arr1, hrun, hso, hpos, hpins, hvec, hlen1, hget⟩ :=
        ih (i + 1)
          { w with pins := w.pins.erase arr[i].bm_lovBuffer,
                   events := w.events ++ [ScanEvent.ReleaseBuffer arr[i].bm_lovBuffer],
                   vectors := w.vectors.set a (arr.set i (invalidated arr[i])) }
          (arr.set i (invalidated arr[i]))
          (by simp [ha]) (by simp; omega) (by rw [hdrop1]; exact hsub1)
      refine ⟨w1, arr1, ?_, hso, hpos, ?_, hvec, by simpa using hlen1, ?_⟩
      · rw [← hrun]
        simp only [releaseAndInvalidateLoop, ScanWorld.readVec, h, hv, hvalid, ReleaseBuffer, hmem,
          ScanWorld.writeVec, hi, bind, Except.bind, if_true, invalidated]
      · rw [hpins, hdrop, List.take_succ_cons, hvb, List.diff_cons, hdrop1]
      · intro j
        rw [hget j]
        by_cases hj : j = i
        · subst hj
          have h1 : ¬ (j + 1 ≤ j ∧ j < j + 1 + todo) := by omega
          have h2 : j ≤ j ∧ j < j + (todo + 1) := by omega
          rw [if_neg h1, if_pos h2, hv]
          simp [hi]
        · have hset : (arr.set i (invalidated arr[i])).get? j = arr.get? j := by
            simp [List.getElem?_set, Ne.symm hj]
          rw [hset]
          by_cases hc : i + 1 ≤ j ∧ j < i + 1 + todo
          · have h2 : i ≤ j ∧ j < i + (todo + 1) := by omega
            rw [if_pos hc, if_pos h2]
          · have h2 : ¬ (i ≤ j ∧ j < i + (todo + 1)) := by omega
            rw [if_neg hc, if_neg h2]
    | false =>
      have hvb : validBuffers (arr[i] :: (arr.drop (i + 1)).take todo) =
          validBuffers ((arr.drop (i + 1)).take todo) := by
        simp [validBuffers, hvalid]
      rw [hvb] at hsub
      obtain ⟨w1, arr1, hrun, hso, hpos, hpins, hvec, hlen1, hget⟩ :=
        ih (i + 1) w arr h (by omega) hsub
      refine ⟨w1, arr1, ?_, hso, hpos, ?_, hvec, hlen1, ?_⟩
      · rw [← hrun]
        simp only [releaseAndInvalidateLoop, ScanWorld.readVec, h, hv, hvalid, bind, Except.bind,
          pure, Except.pure]
        simp
      · rw [hpins, hdrop, List.take_succ_cons, hvb]
      · intro j
        rw [hget j]
        by_cases hj : j = i
        · subst hj
          have h1 : ¬ (j + 1 ≤ j ∧ j < j + 1 + todo) := by omega
          have h2 : j ≤ j ∧ j < j + (todo + 1) := by omega
          rw [if_neg h1, if_pos h2, hv]
          simp [invalidated_of_not_valid _ hvalid]
        · by_cases hc : i + 1 ≤ j ∧ j < i + 1 + todo
          · have h2 : i ≤ j ∧ j < i + (todo + 1) := by omega
            rw [if_pos hc, if_pos h2]
          · have h2 : ¬ (i ≤ j ∧ j < i + (todo + 1)) := by omega
            rw [if_neg hc, if_neg h2]

/-- C5 (the code at the failing input): on a scan whose current position holds one
vector with the valid page reference 7, `bmmarkpos_internal` followed immediately by
`bmrestrpos_internal` returns normally with the current position flagged valid, but
its vector no longer holds the page reference (it is `InvalidBuffer`): the mark's
`posvecs` is the current position's own array, so the release loop of the restore
invalidates both. -/
theorem bmmarkpos_bmrestrpos_loses_page_reference :
    currentVectors positionedScan = Except.ok [⟨7, some 0, 11⟩] ∧
    (bmmarkpos_internal positionedScan >>= bmrestrpos_internal >>= currentVectors) =
      Except.ok [⟨InvalidBuffer, some 0, 11⟩] ∧
    (bmmarkpos_internal positionedScan >>= bmrestrpos_internal).map
        (fun w => w.so.map (fun so => so.cur_pos_valid)) = Except.ok (some true) :=
  ⟨rfl, rfl, rfl⟩

/-- C6 (the code at the failing input): after `bmmarkpos_internal` the marked position
does not own a copy of the per-vector state. Its `posvecs` pointer equals the current
position's, so an assignment to the current position's vector 0 is read back through
the marked position, and a following `bmrestrpos_internal` does not bring back the
state at the time of the mark. -/
theorem bmmarkpos_internal_shares_vectors :
    (bmmarkpos_internal positionedScan >>= currentPosvecs) = Except.ok (some 0) ∧
    (bmmarkpos_internal positionedScan >>= markedPosvecs) = Except.ok (some 0) ∧
    (bmmarkpos_internal positionedScan >>= markedVectors) = Except.ok [⟨7, some 0, 11⟩] ∧
    (bmmarkpos_internal positionedScan >>= advanceVector 0 ⟨7, some 0, 12⟩ >>= markedVectors) =
      Except.ok [⟨7, some 0, 12⟩] ∧
    (bmmarkpos_internal positionedScan >>= advanceVector 0 ⟨7, some 0, 12⟩ >>=
        bmrestrpos_internal >>= currentVectors) = Except.ok [⟨InvalidBuffer, some 0, 12⟩] :=
  ⟨rfl, rfl, rfl, rfl, rfl⟩

/-- C7 (counterexample): on a scan on which no mark was ever set (as
`bmbeginscan_internal` leaves it), `bmrestrpos_internal` does not fail: it returns
normally and leaves everything as it was. -/
theorem bmrestrpos_internal_returns_when_never_marked :
    (bmbeginscan_internal 1 emptyWorld).so.map (fun so => so.mark_pos_valid) = some false ∧
    bmrestrpos_internal (bmbeginscan_internal 1 emptyWorld) =
      Except.ok (bmbeginscan_internal 1 emptyWorld) :=
  ⟨rfl, rfl⟩

/-- C7 (amended): on a scan on which no mark is set, `bmrestrpos_internal` raises no
precondition error. When the current position is not valid it returns normally and
changes nothing. When the current position is valid and a marked-position struct
with the same number `n` of vectors exists (the current position's array holding its
`n` vectors, their valid page references pinned), it returns normally having released
each valid page reference of the current position once, set them to `InvalidBuffer`,
and flagged the current position invalid; nothing is restored. -/
theorem bmrestrpos_internal_without_mark (w : ScanWorld) (so : BMScanOpaqueData)
    (hso : w.so = some so) (hmark : so.mark_pos_valid = false) :
    (so.cur_pos_valid = false → bmrestrpos_internal w = Except.ok w) ∧
    (so.cur_pos_valid = true →
      ∀ (currPos markPos : BMScanPositionData) (a n : Nat) (arr : List BMVectorData),
        w.readPos so.bm_currPos = Except.ok currPos → currPos.posvecs = some (some a) →
        currPos.nvec = some n →
        w.readPos so.bm_markPos = Except.ok markPos → markPos.nvec = some n →
        w.vectors.get? a = some arr → n ≤ arr.length →
        (validBuffers (arr.take n)).Subperm w.pins →
        ∃ (w1 : ScanWorld) (arr1 : List BMVectorData),
          bmrestrpos_internal w = Except.ok w1 ∧
          w1.so = some { so with cur_pos_valid := false } ∧
          w1.positions = w.positions ∧
          w1.pins = w.pins.diff (validBuffers (arr.take n)) ∧
          w1.vectors.get? a = some arr1 ∧ arr1.length = arr.length ∧
          ∀ j, arr1.get? j = if j < n then (arr.get? j).map invalidated else arr.get? j) := by
  constructor
  · intro hcur
    simp [bmrestrpos_internal, bmrestrpos_free, bmrestrpos_set, ScanWorld.getSo, hso, hcur,
      hmark, bind, Except.bind, pure, Except.pure]
  · intro hcur currPos markPos a n arr hc hcv _ hm hmn harr hlen hsub
    obtain ⟨w1, arr1, hrun, hso1, hpos, hpins, hvec, hlen1, hget⟩ :=
      releaseAndInvalidateLoop_ok a n 0 w arr harr (by omega) (by simpa using hsub)
    refine ⟨{ w1 with so := some { so with cur_pos_valid := false } }, arr1, ?_, rfl, hpos,
      by simpa using hpins, hvec, hlen1, ?_⟩
    · simp [bmrestrpos_internal, bmrestrpos_free, bmrestrpos_set, ScanWorld.getSo, hso, hcur,
        hmark, hc, hcv, hm, hmn, member, hrun, bind, Except.bind, pure, Except.pure]
    · intro j
      rw [hget j]
      by_cases hj : j < n
      · have : 0 ≤ j ∧ j < 0 + n := by omega
        rw [if_pos this, if_pos hj]
      · have : ¬ (0 ≤ j ∧ j < 0 + n) := by omega
        rw [if_neg this, if_neg hj]

/-- C7 (witness): the amended statement on a scan that was begun and never marked, and
on a scan with a valid current position (page references 7 and 9) and a released
mark. -/
theorem bmrestrpos_internal_without_mark_witness :
    bmrestrpos_internal (bmbeginscan_internal 2 emptyWorld) =
      Except.ok (bmbeginscan_internal 2 emptyWorld) ∧
    ∃ (w1 : ScanWorld) (arr1 : List BMVectorData),
      bmrestrpos_internal scanWithReleasedMark = Except.ok w1 ∧
      w1.so = some { bm_currPos := some 0, bm_markPos := some 1, cur_pos_valid := false,
                     mark_pos_valid := false, scanMemoryContext := some 0 } ∧
      w1.positions = scanWithReleasedMark.positions ∧
      w1.pins = [] ∧
      w1.vectors.get? 0 = some arr1 ∧ arr1.length = 2 ∧
      ∀ j, arr1.get? j =
        if j < 2 then
          (List.get? [(⟨7, some 0, 11⟩ : BMVectorData), ⟨9, some 1, 12⟩] j).map invalidated
        else List.get? [(⟨7, some 0, 11⟩ : BMVectorData), ⟨9, some 1, 12⟩] j :=
  ⟨(bmrestrpos_internal_without_mark (bmbeginscan_internal 2 emptyWorld)
        { bm_currPos := none, bm_markPos := none, cur_pos_valid := false,
          mark_pos_valid := false, scanMemoryContext := some 0 } rfl rfl).1 rfl,
    (bmrestrpos_internal_without_mark scanWithReleasedMark
        { bm_currPos := some 0, bm_markPos := some 1, cur_pos_valid := true,
          mark_pos_valid := false, scanMemoryContext := some 0 } rfl rfl).2 rfl
      ⟨some 2, some none, some (some 0), some 5⟩ ⟨some 2, some none, some (some 1), some 4⟩
      0 2 [⟨7, some 0, 11⟩, ⟨9, some 1, 12⟩] rfl rfl rfl rfl rfl rfl (by decide)
      (List.Subperm.refl _)⟩

/-- C8 (the code at the failing input): a scan whose current and marked positions
each hold the page reference 7 (buffer 7 pinned twice, as `bmmarkpos_internal` leaves
it) is ended by `bmendscan_internal` with a single `ReleaseBuffer(7)`: the marked
position's reference is not released and one pin of buffer 7 is still held. -/
theorem bmendscan_internal_keeps_mark_pinned :
    (bmmarkpos_internal positionedScan).map
        (fun w => (w.pins, w.so.map (fun so => so.mark_pos_valid))) =
      Except.ok ([7, 7], some true) ∧
    (bmmarkpos_internal positionedScan >>= markedVectors) = Except.ok [⟨7, some 0, 11⟩] ∧
    (bmmarkpos_internal positionedScan >>= bmendscan_internal).map
        (fun w => (w.pins, w.events.count (ScanEvent.ReleaseBuffer 7), w.so)) =
      Except.ok ([7], 1, none) :=
  ⟨rfl, rfl, rfl⟩

theorem bmendscan_internal_clears_so (w w1 : ScanWorld)
    (h : bmendscan_internal w = Except.ok w1) : w1.so = none := by
  unfold bmendscan_internal at h
  cases hso : w.so with
  | none =>
    rw [hso] at h
    simp only [Except.ok.injEq] at h
    rw [← h]
    exact hso
  | some so =>
    rw [hso] at h
    simp only [bind, Except.bind, pure, Except.pure] at h
    split at h
    · exact absurd h (by simp)
    · split at h
      · exact absurd h (by simp)
      · split at h
        · exact absurd h (by simp)
        · simp only [Except.ok.injEq] at h
          rw [← h]

/-- C9: `bmendscan_internal` is idempotent. Whenever a first call has completed
(returned normally, leaving the world `w1`), a second call returns normally and leaves
the world exactly `w1`: no pin is released, no memory context is deleted, nothing is
freed. -/
theorem bmendscan_internal_idempotent (w w1 : ScanWorld)
    (h : bmendscan_internal w = Except.ok w1) :
    bmendscan_internal w1 = Except.ok w1 := by
  have hso := bmendscan_internal_clears_so w w1 h
  unfold bmendscan_internal
  rw [hso]

/-- C9 (witness): ending the scan positioned on one vector twice. -/
theorem bmendscan_internal_idempotent_witness :
    bmendscan_internal positionedScan =
      Except.ok { positionedScan with
        pins := [],
        events := [ScanEvent.ReleaseBuffer 7, ScanEvent.MemoryContextDelete 0,
                   ScanEvent.pfree_so],
        so := none } ∧
    bmendscan_internal { positionedScan with
        pins := [],
        events := [ScanEvent.ReleaseBuffer 7, ScanEvent.MemoryContextDelete 0,
                   ScanEvent.pfree_so],
        so := none } =
      Except.ok { positionedScan with
        pins := [],
        events := [ScanEvent.ReleaseBuffer 7, ScanEvent.MemoryContextDelete 0,
                   ScanEvent.pfree_so],
        so := none } :=
  ⟨rfl, bmendscan_internal_idempotent positionedScan _ rfl⟩

/-- C10 (the code at the failing input): a scan that was begun but never started
cannot be ended. For every backend state and key count, `bmendscan_internal` right
after `bmbeginscan_internal` dereferences the null `bm_currPos` (it reads
`so->bm_currPos->nvec`), and so it does after a `bmrescan_internal` in between. -/
theorem bmendscan_internal_after_begin_faults (nkeys : Nat) (w : ScanWorld) :
    bmendscan_internal (bmbeginscan_internal nkeys w) =
      Except.error Fault.null_pointer_dereference ∧
    (bmrescan_internal none (bmbeginscan_internal nkeys w) >>= bmendscan_internal) =
      Except.error Fault.null_pointer_dereference := by
  constructor
  · rfl
  · rfl

/-- C11 (the code at the failing input): pin accounting does not survive mark then
restore. On the scan whose current position holds buffer 7 (pinned once), after
`bmmarkpos_internal` the backend holds 2 pins on buffer 7 and each position holds one
reference to it; after the following `bmrestrpos_internal` both positions are flagged
valid, neither holds a valid reference (the shared vector was set to `InvalidBuffer`),
and the backend still holds 1 pin on buffer 7. -/
theorem bmmarkpos_bmrestrpos_leaves_unreferenced_pin :
    (bmmarkpos_internal positionedScan).map (fun w => pinCount w 7) = Except.ok 2 ∧
    (bmmarkpos_internal positionedScan >>= currentVectors).map
        (fun vs => referenceCount vs 7) = Except.ok 1 ∧
    (bmmarkpos_internal positionedScan >>= markedVectors).map
        (fun vs => referenceCount vs 7) = Except.ok 1 ∧
    (bmmarkpos_internal positionedScan >>= bmrestrpos_internal).map
        (fun w => (pinCount w 7, w.so.map (fun so => (so.cur_pos_valid, so.mark_pos_valid)))) =
      Except.ok (1, some (true, true)) ∧
    (bmmarkpos_internal positionedScan >>= bmrestrpos_internal >>= currentVectors).map
        (fun vs => referenceCount vs 7) = Except.ok 0 ∧
    (bmmarkpos_internal positionedScan >>= bmrestrpos_internal >>= markedVectors).map
        (fun vs => referenceCount vs 7) = Except.ok 0 :=
  ⟨rfl, rfl, rfl, rfl, rfl, rfl⟩

/-- C12 (the code at the failing input): `bmrescan_internal` releases nothing. On the
scan whose current position holds buffer 7, and on the same scan after a mark (buffer
7 pinned twice), it returns normally with both position pointers `NULL`, makes no
`ReleaseBuffer` call, and the backend still holds every pin it held before. -/
theorem bmrescan_internal_releases_no_pin :
    (bmrescan_internal none positionedScan).map
        (fun w => (w.pins, w.events, w.so.map (fun so => (so.bm_currPos, so.bm_markPos)))) =
      Except.ok ([7], [ScanEvent.MemoryContextReset 0], some (none, none)) ∧
    (bmmarkpos_internal positionedScan >>= bmrescan_internal none).map
        (fun w => (w.pins, w.events.count (ScanEvent.ReleaseBuffer 7),
                   w.so.map (fun so => (so.bm_currPos, so.bm_markPos)))) =
      Except.ok ([7, 7], 0, some (none, none)) :=
  ⟨rfl, rfl⟩

/-- C14 (counterexample): the routine table of `bmhandler` has no entry for
`scan_next`, `scan_mark` and `scan_restore`: `amgettuple`, `ammarkpos` and
`amrestrpos` are `NULL`. -/
theorem bmhandler_scan_next_mark_restore_null :
    bmhandler.amgettuple = none ∧ bmhandler.ammarkpos = none ∧
    bmhandler.amrestrpos = none :=
  ⟨rfl, rfl, rfl⟩

/-- C14 (amended): the routine table of `bmhandler` binds build, build_empty, insert,
begin_scan, end_scan, bulk_delete and vacuum_cleanup to their `bm*_internal`
functions, and exposes scanning through `amgetbitmap` and `amrescan` only:
`amgettuple`, `ammarkpos` and `amrestrpos` are `NULL`. -/
theorem bmhandler_routine_table :
    bmhandler.ambuild = some AmFunction.bmbuild_internal ∧
    bmhandler.ambuildempty = some AmFunction.bmbuildempty_internal ∧
    bmhandler.aminsert = some AmFunction.bminsert_internal ∧
    bmhandler.ambeginscan = some AmFunction.bmbeginscan_internal ∧
    bmhandler.amendscan = some AmFunction.bmendscan_internal ∧
    bmhandler.ambulkdelete = some AmFunction.bmbulkdelete_internal ∧
    bmhandler.amvacuumcleanup = some AmFunction.bmvacuumcleanup_internal ∧
    bmhandler.amgetbitmap = some AmFunction.bmgetbitmap_internal ∧
    bmhandler.amrescan = some AmFunction.bmrescan_internal ∧
    bmhandler.amgettuple = none ∧ bmhandler.ammarkpos = none ∧
    bmhandler.amrestrpos = none := by
  decide

theorem list_get?_append_length {α : Type} (l1 : List α) (x : α) (l2 : List α) :
    (l1 ++ x :: l2).get? l1.length = some x := by
  induction l1 with
  | nil => rfl
  | cons a l ih => simpa using ih

theorem list_set_append_length {α : Type} (l1 : List α) (x v : α) (l2 : List α) :
    (l1 ++ x :: l2).set l1.length v = l1 ++ v :: l2 := by
  induction l1 with
  | nil => rfl
  | cons a l ih => simp [List.set, ih]

theorem assignAttr_at_length (pre : TupleDesc) (att : FormData_pg_attribute)
    (post : TupleDesc) (f : FormData_pg_attribute → FormData_pg_attribute) :
    assignAttr (pre ++ some att :: post) pre.length f =
      Except.ok (pre ++ some (f att) :: post) := by
  unfold assignAttr
  rw [list_get?_append_length]
  simp only
  rw [list_set_append_length]

theorem copyAttributesLoop_eq (rest : List FormData_pg_attribute) :
    ∀ (done pre : List FormData_pg_attribute) (extra : Nat), pre.length = done.length →
      copyAttributesLoop (done ++ rest) rest.length (done.length + 1)
          (pre.map some ++ List.replicate (rest.length + extra) none) =
        Except.ok ((pre ++ copiedAttrs rest (done.length + 1)).map some ++
          List.replicate extra none) := by
  induction rest with
  | nil =>
    intro done pre extra _
    simp [copyAttributesLoop, copiedAttrs]
  | cons a rest ih =>
    intro done pre extra hpre
    have hlen : (pre.map some : TupleDesc).length = done.length := by simp [hpre]
    have hrep : List.replicate (rest.length + 1 + extra) (none : Option FormData_pg_attribute) =
        none :: List.replicate (rest.length + extra) none := by
      have : rest.length + 1 + extra = (rest.length + extra) + 1 := by omega
      rw [this, List.replicate_succ]
    have hsrc : (done ++ a :: rest).get? (done.length + 1 - 1) = some a := by
      simpa using list_get?_append_length done a rest
    have hcopy : TupleDescCopyEntry
        (pre.map some ++ none :: List.replicate (rest.length + extra) none) (done.length + 1)
        (done ++ a :: rest) (done.length + 1) =
        Except.ok (pre.map some ++
          some { a with attnum := done.length + 1, attnotnull := false, atthasdef := false } ::
            List.replicate (rest.length + extra) none) := by
      unfold TupleDescCopyEntry
      have hc : 1 ≤ done.length + 1 ∧ 1 ≤ done.length + 1 ∧
          done.length + 1 ≤
            (pre.map some ++ (none : Option FormData_pg_attribute) ::
              List.replicate (rest.length + extra) none).length := by
        simp [hpre]
      rw [if_pos hc, hsrc]
      simp only
      have := list_set_append_length (pre.map some) (none : Option FormData_pg_attribute)
        (some { a with attnum := done.length + 1, attnotnull := false, atthasdef := false })
        (List.replicate (rest.length + extra) none)
      rw [hlen] at this
      simpa using this
    have hassign : ∀ (x : FormData_pg_attribute)
        (f : FormData_pg_attribute → FormData_pg_attribute),
        assignAttr (pre.map some ++ some x :: List.replicate (rest.length + extra) none)
          (done.length + 1 - 1) f =
        Except.ok (pre.map some ++ some (f x) :: List.replicate (rest.length + extra) none) := by
      intro x f
      have := assignAttr_at_length (pre.map some) x
        (List.replicate (rest.length + extra) none) f
      rw [hlen] at this
      simpa using this
    have hih := ih (done ++ [a]) (pre ++ [copiedAttr a (done.length + 1)]) extra
      (by simp [hpre])
    simp only [List.length_cons]
    rw [hrep]
    unfold copyAttributesLoop
    simp only [bind, Except.bind, hcopy, hassign, hsrc]
    have e1 : done ++ a :: rest = (done ++ [a]) ++ rest := by simp
    have e2 : (done ++ [a]).length = done.length + 1 := by simp
    rw [e1]
    have e3 : (pre.map some ++
        some ({ ({ ({ ({ a with attnum := done.length + 1, attnotnull := false,
                                atthasdef := false } : FormData_pg_attribute) with
                        attrelid := InvalidOid } : FormData_pg_attribute) with
                    attnotnull := a.attnotnull } : FormData_pg_attribute) with
                attisdropped := false } : FormData_pg_attribute) ::
          List.replicate (rest.length + extra) none : TupleDesc) =
        (pre ++ [copiedAttr a (done.length + 1)]).map some ++
          List.replicate (rest.length + extra) none := by
      simp [copiedAttr]
    rw [e2] at hih
    rw [e3, hih]
    simp [copiedAttrs]

theorem copiedAttrs_length (l : List FormData_pg_attribute) :
    ∀ attno, (copiedAttrs l attno).length = l.length := by
  induction l with
  | nil => intro attno; rfl
  | cons a l ih => intro attno; simp [copiedAttrs, ih]

theorem copiedAttrs_get? (l : List FormData_pg_attribute) :
    ∀ (attno i : Nat) (att : FormData_pg_attribute), l.get? i = some att →
      (copiedAttrs l attno).get? i = some (copiedAttr att (attno + i)) := by
  induction l with
  | nil => intro attno i att h; simp at h
  | cons a l ih =>
    intro attno i att h
    cases i with
    | zero =>
      simp only [List.get?_cons_zero, Option.some.injEq] at h
      subst h
      rfl
    | succ j =>
      simp only [List.get?_cons_succ] at h
      have := ih (attno + 1) j att h
      simp only [copiedAttrs, List.get?_cons_succ, this]
      have e : attno + 1 + j = attno + (j + 1) := by omega
      rw [e]

theorem TupleDescInitEntry_at_length (pre : TupleDesc) (x : Option FormData_pg_attribute)
    (post : TupleDesc) (name : String) :
    TupleDescInitEntry (pre ++ x :: post) (pre.length + 1) name INT4OID (-1) 0 =
      Except.ok (pre ++
        some (⟨0, name, INT4OID, 4, pre.length + 1, -1, 0, true, false, false, false, 0⟩ :
          FormData_pg_attribute) :: post) := by
  unfold TupleDescInitEntry
  have hc : 1 ≤ pre.length + 1 ∧ pre.length + 1 ≤ (pre ++ x :: post).length := by
    simp
  rw [if_pos hc]
  have ht : typlen INT4OID = some 4 := rfl
  rw [ht]
  simp only [Nat.add_sub_cancel]
  rw [list_set_append_length]

theorem _bitmap_create_lov_heapTupleDesc_eq (oldTupDesc : List FormData_pg_attribute) :
    _bitmap_create_lov_heapTupleDesc oldTupDesc =
      Except.ok ((copiedAttrs oldTupDesc 1 ++
        [locationAttr "blockNumber" (oldTupDesc.length + 1),
         locationAttr "offsetNumber" (oldTupDesc.length + 2)]).map some) := by
  have hloop := copyAttributesLoop_eq oldTupDesc [] [] 2 rfl
  simp only [List.nil_append, List.length_nil, Nat.zero_add, List.map_nil] at hloop
  have h2 : List.replicate 2 (none : Option FormData_pg_attribute) = [none, none] := rfl
  rw [h2] at hloop
  have hlen : ((copiedAttrs oldTupDesc 1).map some : TupleDesc).length = oldTupDesc.length := by
    simp [copiedAttrs_length]
  have hinit1 := TupleDescInitEntry_at_length ((copiedAttrs oldTupDesc 1).map some) none
    [none] "blockNumber"
  have hassign1 := fun att f => assignAttr_at_length ((copiedAttrs oldTupDesc 1).map some) att
    [none] f
  have hinit2 := fun att => TupleDescInitEntry_at_length
    ((copiedAttrs oldTupDesc 1).map some ++ [some att]) none [] "offsetNumber"
  have hassign2 := fun att0 att f => assignAttr_at_length
    ((copiedAttrs oldTupDesc 1).map some ++ [some att0]) att [] f
  simp only [hlen, List.length_append, List.length_singleton, List.append_assoc,
    List.singleton_append] at hinit1 hassign1 hinit2 hassign2
  unfold _bitmap_create_lov_heapTupleDesc
  simp only [CreateTemplateTupleDesc, bind, Except.bind, pure, Except.pure, hloop,
    Nat.add_sub_cancel, hinit1, hassign1, hinit2, hassign2]
  simp [locationAttr, InvalidOid]

/-- C16: for every bitmap index with `n` attributes, the descriptor built by
`_bitmap_create_lov_heapTupleDesc` has exactly `n + 2` attributes, all initialised.
Attribute `i + 1` (for `i < n`) is the index's attribute `i + 1` with the same name,
type, length, type modifier and not-null flag, marked not dropped, with the owning
relation unset. Attribute `n + 1` is "blockNumber" and attribute `n + 2` is
"offsetNumber", both of type `INT4OID` with length 4 and NOT NULL, owning relation
unset. -/
theorem _bitmap_create_lov_heapTupleDesc_attributes
    (oldTupDesc : List FormData_pg_attribute) :
    ∃ (desc : List FormData_pg_attribute) (blk off : FormData_pg_attribute),
      _bitmap_create_lov_heapTupleDesc oldTupDesc = Except.ok (desc.map some) ∧
      desc.length = oldTupDesc.length + 2 ∧
      (∀ i old, oldTupDesc.get? i = some old →
        ∃ new, desc.get? i = some new ∧
          new.attname = old.attname ∧ new.atttypid = old.atttypid ∧
          new.attlen = old.attlen ∧ new.atttypmod = old.atttypmod ∧
          new.attnotnull = old.attnotnull ∧ new.attisdropped = false ∧
          new.attrelid = InvalidOid ∧ new.attnum = i + 1) ∧
      desc.get? oldTupDesc.length = some blk ∧
      desc.get? (oldTupDesc.length + 1) = some off ∧
      blk.attname = "blockNumber" ∧ blk.atttypid = INT4OID ∧ blk.attlen = 4 ∧
      blk.attnotnull = true ∧ blk.attrelid = InvalidOid ∧
      blk.attnum = oldTupDesc.length + 1 ∧
      off.attname = "offsetNumber" ∧ off.atttypid = INT4OID ∧ off.attlen = 4 ∧
      off.attnotnull = true ∧ off.attrelid = InvalidOid ∧
      off.attnum = oldTupDesc.length + 2 := by
  refine ⟨copiedAttrs oldTupDesc 1 ++
      [locationAttr "blockNumber" (oldTupDesc.length + 1),
       locationAttr "offsetNumber" (oldTupDesc.length + 2)],
    locationAttr "blockNumber" (oldTupDesc.length + 1),
    locationAttr "offsetNumber" (oldTupDesc.length + 2),
    _bitmap_create_lov_heapTupleDesc_eq oldTupDesc, ?_, ?_, ?_, ?_,
    rfl, rfl, rfl, rfl, rfl, rfl, rfl, rfl, rfl, rfl, rfl, rfl⟩
  · simp [copiedAttrs_length]
  · intro i old h
    have hi : i < oldTupDesc.length := by
      by_contra hc
      have : oldTupDesc.get? i = none := by simp; omega
      rw [this] at h
      exact absurd h (by simp)
    refine ⟨copiedAttr old (1 + i), ?_, rfl, rfl, rfl, rfl, rfl, rfl, rfl, by
      simp only [copiedAttr]; omega⟩
    have hg := copiedAttrs_get? oldTupDesc 1 i old h
    have hlt : i < (copiedAttrs oldTupDesc 1).length := by
      rw [copiedAttrs_length]; exact hi
    simp only [List.get?_eq_getElem?] at hg ⊢
    rw [List.getElem?_append_left hlt, hg]
  · have hl := copiedAttrs_length oldTupDesc 1
    have := list_get?_append_length (copiedAttrs oldTupDesc 1)
      (locationAttr "blockNumber" (oldTupDesc.length + 1))
      [locationAttr "offsetNumber" (oldTupDesc.length + 2)]
    rw [hl] at this
    exact this
  · have hl : (copiedAttrs oldTupDesc 1 ++
        [locationAttr "blockNumber" (oldTupDesc.length + 1)]).length =
        oldTupDesc.length + 1 := by
      simp [copiedAttrs_length]
    have := list_get?_append_length
      (copiedAttrs oldTupDesc 1 ++ [locationAttr "blockNumber" (oldTupDesc.length + 1)])
      (locationAttr "offsetNumber" (oldTupDesc.length + 2)) []
    rw [hl] at this
    simpa using this

/-- C16 (witness): the descriptor for an index on a `text` column and a NOT NULL `int8`
column. -/
theorem _bitmap_create_lov_heapTupleDesc_attributes_witness :
    ∃ (desc : List FormData_pg_attribute) (blk off : FormData_pg_attribute),
      _bitmap_create_lov_heapTupleDesc sampleIndexDesc = Except.ok (desc.map some) ∧
      desc.length = sampleIndexDesc.length + 2 ∧
      (∀ i old, sampleIndexDesc.get? i = some old →
        ∃ new, desc.get? i = some new ∧
          new.attname = old.attname ∧ new.atttypid = old.atttypid ∧
          new.attlen = old.attlen ∧ new.atttypmod = old.atttypmod ∧
          new.attnotnull = old.attnotnull ∧ new.attisdropped = false ∧
          new.attrelid = InvalidOid ∧ new.attnum = i + 1) ∧
      desc.get? sampleIndexDesc.length = some blk ∧
      desc.get? (sampleIndexDesc.length + 1) = some off ∧
      blk.attname = "blockNumber" ∧ blk.atttypid = INT4OID ∧ blk.attlen = 4 ∧
      blk.attnotnull = true ∧ blk.attrelid = InvalidOid ∧
      blk.attnum = sampleIndexDesc.length + 1 ∧
      off.attname = "offsetNumber" ∧ off.atttypid = INT4OID ∧ off.attlen = 4 ∧
      off.attnotnull = true ∧ off.attrelid = InvalidOid ∧
      off.attnum = sampleIndexDesc.length + 2 :=
  _bitmap_create_lov_heapTupleDesc_attributes sampleIndexDesc

theorem indexColumnsLoop_eq (GetDefaultOpClass : Nat → Nat)
    (desc : List FormData_pg_attribute) :
    ∀ (todo i : Nat) (st : LovIndexColumns),
      i + todo ≤ desc.length → i + todo ≤ INDEX_MAX_KEYS →
      st.indexInfo.ii_IndexAttrNumbers =
        (List.range i).map (fun j => j + 1) ++ List.replicate (INDEX_MAX_KEYS - i) 0 →
      ∃ st1, indexColumnsLoop GetDefaultOpClass (desc.map some) todo i st = Except.ok st1 ∧
        st1.indexInfo = { st.indexInfo with
          ii_IndexAttrNumbers := (List.range (i + todo)).map (fun j => j + 1) ++
            List.replicate (INDEX_MAX_KEYS - (i + todo)) 0 } := by
  intro todo
  induction todo with
  | zero =>
    intro i st _ _ hnum
    refine ⟨st, rfl, ?_⟩
    cases st with
    | mk info c n =>
      cases info
      simp only at hnum
      simp [hnum]
  | succ todo ih =>
    intro i st hlen hmax hnum
    have hi : i < desc.length := by omega
    have hget : (desc.map some).get? i = some (some desc[i]) := by
      simp [List.getElem?_eq_getElem hi]
    have hrep : List.replicate (INDEX_MAX_KEYS - i) 0 =
        0 :: List.replicate (INDEX_MAX_KEYS - (i + 1)) 0 := by
      have : INDEX_MAX_KEYS - i = (INDEX_MAX_KEYS - (i + 1)) + 1 := by omega
      rw [this, List.replicate_succ]
    have hl : ((List.range i).map (fun j => j + 1)).length = i := by simp
    have hbound : i < st.indexInfo.ii_IndexAttrNumbers.length := by
      rw [hnum]
      simp
      omega
    have hset : st.indexInfo.ii_IndexAttrNumbers.set i (i + 1) =
        (List.range (i + 1)).map (fun j => j + 1) ++
          List.replicate (INDEX_MAX_KEYS - (i + 1)) 0 := by
      rw [hnum, hrep]
      have := list_set_append_length ((List.range i).map (fun j => j + 1)) 0 (i + 1)
        (List.replicate (INDEX_MAX_KEYS - (i + 1)) 0)
      rw [hl] at this
      rw [this, List.range_succ]
      simp
    obtain ⟨st1, hrun, hinfo⟩ := ih (i + 1)
      { indexInfo := { st.indexInfo with
          ii_IndexAttrNumbers := st.indexInfo.ii_IndexAttrNumbers.set i (i + 1) }
        classObjectId := st.classObjectId ++ [GetDefaultOpClass desc[i].atttypid]
        indexColNames := st.indexColNames ++ [desc[i].attname] }
      (by omega) (by omega) hset
    refine ⟨st1, ?_, ?_⟩
    · rw [← hrun]
      simp only [indexColumnsLoop, hbound, if_true, hget, bind, Except.bind]
    · rw [hinfo]
      have e : i + 1 + todo = i + (todo + 1) := by omega
      simp [e]

theorem _bitmap_create_lov_heapandindex_eq (GetDefaultOpClass : Nat → Nat)
    (oldTupDesc : List FormData_pg_attribute) (hmax : oldTupDesc.length ≤ INDEX_MAX_KEYS) :
    ∃ c, _bitmap_create_lov_heapandindex GetDefaultOpClass oldTupDesc = Except.ok c ∧
      c.heapTupDesc = (copiedAttrs oldTupDesc 1 ++
        [locationAttr "blockNumber" (oldTupDesc.length + 1),
         locationAttr "offsetNumber" (oldTupDesc.length + 2)]).map some ∧
      c.indexInfo =
        { ii_NumIndexAttrs := (oldTupDesc.length : Int),
          ii_NumIndexKeyAttrs := (oldTupDesc.length : Int),
          ii_IndexAttrNumbers := (List.range oldTupDesc.length).map (fun j => j + 1) ++
            List.replicate (INDEX_MAX_KEYS - oldTupDesc.length) 0,
          ii_Expressions := [], ii_Predicate := [], ii_Unique := true,
          ii_ParallelWorkers := 0 } := by
  have hdesc := _bitmap_create_lov_heapTupleDesc_eq oldTupDesc
  have hlen : ((copiedAttrs oldTupDesc 1 ++
        [locationAttr "blockNumber" (oldTupDesc.length + 1),
         locationAttr "offsetNumber" (oldTupDesc.length + 2)]).map some).length =
      oldTupDesc.length + 2 := by
    simp [copiedAttrs_length]
  have hind2 : ((oldTupDesc.length + 2 : Nat) : Int) - 2 = (oldTupDesc.length : Int) := by
    omega
  obtain ⟨st1, hrun, hinfo⟩ := indexColumnsLoop_eq GetDefaultOpClass
    (copiedAttrs oldTupDesc 1 ++
        [locationAttr "blockNumber" (oldTupDesc.length + 1),
         locationAttr "offsetNumber" (oldTupDesc.length + 2)])
    oldTupDesc.length 0
    { indexInfo :=
        { ii_NumIndexAttrs := (oldTupDesc.length : Int),
          ii_NumIndexKeyAttrs := (oldTupDesc.length : Int),
          ii_IndexAttrNumbers := List.replicate INDEX_MAX_KEYS 0,
          ii_Expressions := [], ii_Predicate := [], ii_Unique := true,
          ii_ParallelWorkers := 0 },
      classObjectId := [], indexColNames := [] }
    (by simp [copiedAttrs_length]) (by omega) (by simp)
  refine ⟨{ heapTupDesc := _, indexInfo := st1.indexInfo,
            indexColNames := st1.indexColNames, classObjectId := st1.classObjectId }, ?_,
    rfl, ?_⟩
  · unfold _bitmap_create_lov_heapandindex
    simp only [hdesc, bind, Except.bind, pure, Except.pure, hlen, hind2, Int.toNat_ofNat,
      hrun]
  · simp only [hinfo]
    simp

/-- C17: the LOV index is unique over exactly the value columns. For an index with at
most `INDEX_MAX_KEYS` attributes, `_bitmap_create_lov_heapandindex` creates the LOV
index with `ii_Unique` set, no expression columns, and `m` index attributes, all of
them key attributes, numbered 1..m in order, where `m` is the LOV heap's attribute
count minus 2. `_bitmap_insert_lov` inserts the whole row into the heap and calls
`index_insert` with `UNIQUE_CHECK_YES` on exactly the first `m` values and null flags
of the row, so the block-number and offset columns are not part of the key. -/
theorem lov_index_unique_over_value_columns (GetDefaultOpClass : Nat → Nat)
    (oldTupDesc : List FormData_pg_attribute) :
    (oldTupDesc.length ≤ INDEX_MAX_KEYS →
      ∃ c, _bitmap_create_lov_heapandindex GetDefaultOpClass oldTupDesc = Except.ok c ∧
        c.indexInfo.ii_Unique = true ∧
        c.indexInfo.ii_Expressions = [] ∧
        c.indexInfo.ii_NumIndexAttrs = (c.heapTupDesc.length : Int) - 2 ∧
        c.indexInfo.ii_NumIndexKeyAttrs = (c.heapTupDesc.length : Int) - 2 ∧
        c.indexInfo.ii_IndexAttrNumbers.take (c.heapTupDesc.length - 2) =
          (List.range (c.heapTupDesc.length - 2)).map (fun j => j + 1) ∧
        c.heapTupDesc.length - 2 = oldTupDesc.length) ∧
    (∀ (natts : Nat) (datum : List Nat) (nulls : List Bool),
      2 ≤ natts → datum.length = natts → nulls.length = natts →
      _bitmap_insert_lov natts datum nulls =
        Except.ok { heapDatum := datum, heapNulls := nulls,
                    indexDatum := datum.take (natts - 2),
                    indexNulls := nulls.take (natts - 2),
                    checkUnique := IndexUniqueCheck.UNIQUE_CHECK_YES } ∧
      (datum.take (natts - 2)).length = natts - 2 ∧
      datum = datum.take (natts - 2) ++ datum.drop (natts - 2) ∧
      (datum.drop (natts - 2)).length = 2) := by
  constructor
  · intro hmax
    obtain ⟨c, hrun, hdesc, hinfo⟩ :=
      _bitmap_create_lov_heapandindex_eq GetDefaultOpClass oldTupDesc hmax
    have hlen : c.heapTupDesc.length = oldTupDesc.length + 2 := by
      rw [hdesc]
      simp [copiedAttrs_length]
    refine ⟨c, hrun, ?_, ?_, ?_, ?_, ?_, ?_⟩
    · rw [hinfo]
    · rw [hinfo]
    · rw [hinfo, hlen]
      simp only
      omega
    · rw [hinfo, hlen]
      simp only
      omega
    · rw [hinfo, hlen]
      simp only [Nat.add_sub_cancel]
      have hl : ((List.range oldTupDesc.length).map (fun j => j + 1)).length =
          oldTupDesc.length := by simp
      rw [List.take_append_of_le_length (by rw [hl]), List.take_of_length_le (by rw [hl])]
    · rw [hlen]
      simp
  · intro natts datum nulls h2 hd hn
    have hc : natts ≤ datum.length ∧ natts ≤ nulls.length := by omega
    have hdrop1 : (List.replicate (natts - 2) (0 : Nat)).drop (natts - 2) = [] := by simp
    have hdrop2 : (List.replicate (natts - 2) false).drop (natts - 2) = [] := by simp
    refine ⟨?_, ?_, ?_, ?_⟩
    · unfold _bitmap_insert_lov
      rw [if_pos hc, if_pos h2, hdrop1, hdrop2]
      have e1 : datum.take natts = datum := List.take_of_length_le (by omega)
      have e2 : nulls.take natts = nulls := List.take_of_length_le (by omega)
      simp [e1, e2]
    · simp
      omega
    · simp
    · simp
      omega

/-- C17 (witness): the LOV index of an index on two columns, and the insertion of the
row (10, NULL, block 5, offset 6). -/
theorem lov_index_unique_over_value_columns_witness :
    (∃ c, _bitmap_create_lov_heapandindex sampleOpClass sampleIndexDesc = Except.ok c ∧
        c.indexInfo.ii_Unique = true ∧
        c.indexInfo.ii_Expressions = [] ∧
        c.indexInfo.ii_NumIndexAttrs = (c.heapTupDesc.length : Int) - 2 ∧
        c.indexInfo.ii_NumIndexKeyAttrs = (c.heapTupDesc.length : Int) - 2 ∧
        c.indexInfo.ii_IndexAttrNumbers.take (c.heapTupDesc.length - 2) =
          (List.range (c.heapTupDesc.length - 2)).map (fun j => j + 1) ∧
        c.heapTupDesc.length - 2 = sampleIndexDesc.length) ∧
    _bitmap_insert_lov 4 [10, 20, 5, 6] [false, true, false, false] =
      Except.ok { heapDatum := [10, 20, 5, 6], heapNulls := [false, true, false, false],
                  indexDatum := List.take (4 - 2) [10, 20, 5, 6],
                  indexNulls := List.take (4 - 2) [false, true, false, false],
                  checkUnique := IndexUniqueCheck.UNIQUE_CHECK_YES } :=
  ⟨(lov_index_unique_over_value_columns sampleOpClass sampleIndexDesc).1 (by decide),
    ((lov_index_unique_over_value_columns sampleOpClass sampleIndexDesc).2 4 [10, 20, 5, 6]
      [false, true, false, false] (by decide) rfl rfl).1⟩

theorem toBlockNumber_DatumGetInt32 (d : Nat) :
    toBlockNumber (DatumGetInt32 d) = d % 4294967296 := by
  unfold toBlockNumber DatumGetInt32
  split <;> omega

theorem toOffsetNumber_DatumGetInt16 (d : Nat) :
    toOffsetNumber (DatumGetInt16 d) = d % 65536 := by
  unfold toOffsetNumber DatumGetInt16
  split <;> omega

/-- C15: `_bitmap_findvalue` returns true exactly when the LOV index scan yields a row.
When it yields none, the routine returns false and leaves all four outputs as the
caller passed them. When it yields a row whose columns `n + 1` and `n + 2` (`n` the
number of LOV index attributes) hold datums with low 32 bits `b` and low 16 bits `o`,
it returns exactly block `b` and offset `o`, both flagged not null. For the LOV heap
and index made by `_bitmap_create_lov_heapandindex`, columns `n + 1` and `n + 2` of
the heap descriptor are "blockNumber" and "offsetNumber". -/
theorem _bitmap_findvalue_returns_stored_location (n : Nat) (out : FindValueOutputs) :
    (∀ row, (_bitmap_findvalue n row out).1 = row.isSome) ∧
    _bitmap_findvalue n none out = (false, out) ∧
    (∀ (tuple : HeapTuple) (dblock doffset b o : Nat),
      tuple.get? n = some (some dblock) → tuple.get? (n + 1) = some (some doffset) →
      dblock % 4294967296 = b → doffset % 65536 = o →
      _bitmap_findvalue n (some tuple) out =
        (true, { lovBlock := b, blockNull := false, lovOffset := o, offsetNull := false })) ∧
    (∀ (GetDefaultOpClass : Nat → Nat) (oldTupDesc : List FormData_pg_attribute)
        (c : LovHeapAndIndex),
      oldTupDesc.length ≤ INDEX_MAX_KEYS →
      _bitmap_create_lov_heapandindex GetDefaultOpClass oldTupDesc = Except.ok c →
      c.indexInfo.ii_NumIndexAttrs = (n : Int) →
      ∃ blk off, c.heapTupDesc.get? n = some (some blk) ∧
        c.heapTupDesc.get? (n + 1) = some (some off) ∧
        blk.attname = "blockNumber" ∧ off.attname = "offsetNumber") := by
  refine ⟨?_, rfl, ?_, ?_⟩
  · intro row
    cases row <;> rfl
  · intro tuple dblock doffset b o hb ho hbm hom
    simp only [List.get?_eq_getElem?] at hb ho
    have h1 : heap_getattr tuple (n + 1) = (dblock, false) := by
      simp [heap_getattr, hb]
    have h2 : heap_getattr tuple (n + 2) = (doffset, false) := by
      simp [heap_getattr, ho]
    simp only [_bitmap_findvalue, h1, h2, toBlockNumber_DatumGetInt32,
      toOffsetNumber_DatumGetInt16, hbm, hom]
  · intro G oldTupDesc c hmax hrun hn
    obtain ⟨c1, hrun1, hdesc, hinfo⟩ :=
      _bitmap_create_lov_heapandindex_eq G oldTupDesc hmax
    rw [hrun] at hrun1
    simp only [Except.ok.injEq] at hrun1
    subst hrun1
    have hlen : oldTupDesc.length = n := by
      rw [hinfo] at hn
      simp only at hn
      exact_mod_cast hn
    subst hlen
    have hl := copiedAttrs_length oldTupDesc 1
    refine ⟨locationAttr "blockNumber" (oldTupDesc.length + 1),
      locationAttr "offsetNumber" (oldTupDesc.length + 2), ?_, ?_, rfl, rfl⟩
    · rw [hdesc, List.map_append]
      have := list_get?_append_length ((copiedAttrs oldTupDesc 1).map some)
        (some (locationAttr "blockNumber" (oldTupDesc.length + 1)))
        [some (locationAttr "offsetNumber" (oldTupDesc.length + 2))]
      simp only [List.length_map, hl] at this
      simpa using this
    · rw [hdesc, List.map_append]
      have := list_get?_append_length
        ((copiedAttrs oldTupDesc 1).map some ++
          [some (locationAttr "blockNumber" (oldTupDesc.length + 1))])
        (some (locationAttr "offsetNumber" (oldTupDesc.length + 2))) []
      simp only [List.length_append, List.length_map, hl, List.length_singleton] at this
      simpa using this

/-- C15 (witness): a LOV row for a two-column index stored with block 4294967294 and
offset 65535 (the datums `Int32GetDatum (-2)` and `Int32GetDatum (-1)` of its two
`int4` location columns) is read back as exactly that block and offset. -/
theorem _bitmap_findvalue_returns_stored_location_witness :
    _bitmap_findvalue 2
        (some [some 10, none, some (Int32GetDatum (-2)), some (Int32GetDatum (-1))])
        ⟨0, true, 0, true⟩ =
      (true, { lovBlock := 4294967294, blockNull := false, lovOffset := 65535,
               offsetNull := false }) ∧
    ∃ blk off,
      List.get? ((copiedAttrs sampleIndexDesc 1 ++
          [locationAttr "blockNumber" 3, locationAttr "offsetNumber" 4]).map some) 2 =
        some (some blk) ∧
      List.get? ((copiedAttrs sampleIndexDesc 1 ++
          [locationAttr "blockNumber" 3, locationAttr "offsetNumber" 4]).map some) (2 + 1) =
        some (some off) ∧
      blk.attname = "blockNumber" ∧ off.attname = "offsetNumber" :=
  ⟨(_bitmap_findvalue_returns_stored_location 2 ⟨0, true, 0, true⟩).2.2.1
      [some 10, none, some (Int32GetDatum (-2)), some (Int32GetDatum (-1))]
      (Int32GetDatum (-2)) (Int32GetDatum (-1)) 4294967294 65535 rfl rfl (by decide)
      (by decide),
    (_bitmap_findvalue_returns_stored_location 2 ⟨0, true, 0, true⟩).2.2.2 sampleOpClass
      sampleIndexDesc
      { heapTupDesc := (copiedAttrs sampleIndexDesc 1 ++
          [locationAttr "blockNumber" 3, locationAttr "offsetNumber" 4]).map some,
        indexInfo :=
          { ii_NumIndexAttrs := 2, ii_NumIndexKeyAttrs := 2,
            ii_IndexAttrNumbers := [1, 2] ++ List.replicate 30 0,
            ii_Expressions := [], ii_Predicate := [], ii_Unique := true,
            ii_ParallelWorkers := 0 },
        indexColNames := ["city", "code"], classObjectId := [1025, 1020] }
      (by decide) rfl rfl⟩

/-- C18 (the code at the failing input): `bmbulkdelete_internal` does not re-use the
struct it is passed. Called with the caller's struct (address 0) and a `_bitmap_vacuum`
that leaves memory alone, it returns a new struct (address 1) whose other members are
zero, and the caller's struct is left as it was, without the new page count;
`bmvacuumcleanup_internal` on the same input returns address 0. For every
`_bitmap_vacuum`, world and argument, a normal return gives the address allocated by
the second `palloc0`. -/
theorem bmbulkdelete_internal_returns_new_struct :
    bmbulkdelete_internal (fun _ w => Except.ok w) (some 0) vacuumInProgress =
      Except.ok (1, { statsHeap := [⟨9, true, 100, 3, 1, 5, 2⟩, ⟨12, false, 100, 0, 0, 0, 0⟩],
                      nblocks := 12, num_heap_tuples := 100 }) ∧
    (bmvacuumcleanup_internal (some 0) vacuumInProgress).map (fun r => r.1) = Except.ok 0 ∧
    (∀ (vacuum : Nat → VacuumWorld → Except Fault VacuumWorld) (p : Nat) (w : VacuumWorld),
      (bmbulkdelete_internal vacuum (some p) w).map (fun r => r.1) =
          Except.ok w.statsHeap.length ∨
        ∃ e, bmbulkdelete_internal vacuum (some p) w = Except.error e) := by
  refine ⟨rfl, rfl, ?_⟩
  intro vacuum p w
  cases h : bmbulkdelete_internal vacuum (some p) w with
  | error e => exact Or.inr ⟨e, rfl⟩
  | ok r =>
    left
    unfold bmbulkdelete_internal at h
    simp only [VacuumWorld.palloc0Stats, bind, Except.bind, pure, Except.pure] at h
    split at h
    · simp at h
    · split at h
      · simp at h
      · split at h
        · simp at h
        · split at h
          · simp at h
          · simp only [Except.ok.injEq] at h
            rw [← h]
            rfl

theorem iovitemdetail_walk_chain (bm_bitmap_next : Nat → Nat) (tail : Nat)
    (htail : tail < InvalidBlockNumber)
    (hlast : bm_bitmap_next tail = InvalidBlockNumber ∨ tail < bm_bitmap_next tail) :
    ∀ (chain : List Nat) (head : Nat),
      chain.head? = some head → chain.getLast? = some tail →
      List.Chain' (fun a b => bm_bitmap_next a = b ∧ a < b) chain →
      head ≤ tail ∧
        ∀ fuel, chain.length < fuel →
          iovitemdetail_walk bm_bitmap_next tail fuel head = some chain := by
  intro chain
  induction chain with
  | nil => intro head hh _ _; simp at hh
  | cons p rest ih =>
    intro head hh hl hc
    simp only [List.head?_cons, Option.some.injEq] at hh
    subst hh
    cases rest with
    | nil =>
      simp only [List.getLast?_singleton, Option.some.injEq] at hl
      subst hl
      refine ⟨Nat.le_refl _, ?_⟩
      intro fuel hf
      obtain ⟨f1, rfl⟩ : ∃ f, fuel = f + 1 := ⟨fuel - 1, by simp at hf; omega⟩
      obtain ⟨f2, rfl⟩ : ∃ f, f1 = f + 1 := ⟨f1 - 1, by simp at hf; omega⟩
      have hcond : p ≠ InvalidBlockNumber ∧ p ≤ p := ⟨Nat.ne_of_lt htail, Nat.le_refl _⟩
      have hstop : ¬ (bm_bitmap_next p ≠ InvalidBlockNumber ∧ bm_bitmap_next p ≤ p) := by
        rintro ⟨h1, h2⟩
        rcases hlast with h | h
        · exact h1 h
        · omega
      simp only [iovitemdetail_walk, if_pos hcond, if_neg hstop, Option.map_some']
    | cons q rest2 =>
      rw [List.getLast?_cons_cons] at hl
      rw [List.chain'_cons] at hc
      obtain ⟨⟨hnext, hlt⟩, hc2⟩ := hc
      obtain ⟨hq, hwalk⟩ := ih q rfl hl hc2
      refine ⟨by omega, ?_⟩
      intro fuel hf
      obtain ⟨f1, rfl⟩ : ∃ f, fuel = f + 1 := ⟨fuel - 1, by simp at hf; omega⟩
      have hcond : p ≠ InvalidBlockNumber ∧ p ≤ tail := ⟨by omega, by omega⟩
      have hrec := hwalk f1 (by simp at hf ⊢; omega)
      simp only [iovitemdetail_walk, if_pos hcond, hnext, hrec, Option.map_some']

/-- C19: the page chain walk of `iovitemdetail` terminates and is complete on
well-formed chains. When the vector's pages form a chain from head to tail in which
each page's next pointer is the following page, with a strictly greater block number,
and the tail (a valid block) has as next pointer the "no next page" sentinel or a
greater block number, then with fuel for one more loop test than the chain has pages
the loop reads exactly the pages of the chain, each once and in chain order, and
stops. For a head equal to `InvalidBlockNumber` it reads no page. -/
theorem iovitemdetail_pages_visits_chain (bm_bitmap_next : Nat → Nat)
    (head tail : Nat) (chain : List Nat) (fuel : Nat) :
    (chain.head? = some head → chain.getLast? = some tail →
      List.Chain' (fun a b => bm_bitmap_next a = b ∧ a < b) chain →
      tail < InvalidBlockNumber →
      (bm_bitmap_next tail = InvalidBlockNumber ∨ tail < bm_bitmap_next tail) →
      chain.length < fuel →
      iovitemdetail_pages bm_bitmap_next head tail fuel = some chain ∧ chain.Nodup) ∧
    iovitemdetail_pages bm_bitmap_next InvalidBlockNumber tail fuel = some [] := by
  constructor
  · intro hh hl hc htail hlast hf
    obtain ⟨hle, hwalk⟩ :=
      iovitemdetail_walk_chain bm_bitmap_next tail htail hlast chain head hh hl hc
    have hhead : head ≠ InvalidBlockNumber := by omega
    refine ⟨?_, ?_⟩
    · simp only [iovitemdetail_pages, if_pos hhead]
      exact hwalk fuel hf
    · have hlt : List.Chain' (fun a b : Nat => a < b) chain :=
        List.Chain'.imp (fun a b h => h.2) hc
      have hp : chain.Pairwise (fun a b : Nat => a < b) := List.chain'_iff_pairwise.mp hlt
      exact hp.imp (fun h => Nat.ne_of_lt h)
  · simp [iovitemdetail_pages]

/-- C19 (witness): the chain 2, 5, 9 is walked in order with fuel 4. -/
theorem iovitemdetail_pages_visits_chain_witness :
    iovitemdetail_pages sampleChainNext 2 9 4 = some [2, 5, 9] ∧ [2, 5, 9].Nodup :=
  (iovitemdetail_pages_visits_chain sampleChainNext 2 9 [2, 5, 9] 4).1 rfl rfl
    (by simp [sampleChainNext]) (by decide) (by decide) (by decide)

theorem wrapInt32_of_small (n : Nat) (h : n < 2147483648) : wrapInt32 (n : Int) = (n : Int) := by
  unfold wrapInt32
  omega

theorem allocRequest_of_small (c : Nat) (h : c ≤ 1073741823) :
    allocRequest (c : Int) = 4 * c := by
  unfold allocRequest
  omega

theorem capacity_pow_bound (k : Nat) (h : 134217728 ≤ 1000 * 2 ^ k) :
    262144000 ≤ 1000 * 2 ^ k := by
  by_cases hk : 18 ≤ k
  · have : 2 ^ 18 ≤ 2 ^ k := Nat.pow_le_pow_right (by decide) hk
    have e : (2 : Nat) ^ 18 = 262144 := by norm_num
    omega
  · have : 2 ^ k ≤ 2 ^ 17 := Nat.pow_le_pow_right (by decide) (by omega)
    have e : (2 : Nat) ^ 17 = 131072 := by norm_num
    omega

theorem take_succ_set_eq {α : Type} (l : List α) (n : Nat) (v : α) (h : n < l.length) :
    (l.set n v).take (n + 1) = l.take n ++ [v] := by
  induction l generalizing n with
  | nil => simp at h
  | cons a l ih =>
    cases n with
    | zero => simp
    | succ m =>
      simp only [List.length_cons, Nat.add_lt_add_iff_right] at h
      simp [List.set, ih m h]

theorem read_positions_loop_inv :
    ∀ (rest done : List Int) (c k : Nat) (positions : List Int),
      positions.length = c → positions.take done.length = done →
      c = 1000 * 2 ^ k → done.length < c → c ≤ 268435455 →
      (k = 0 ∨ 1000 * 2 ^ (k - 1) ≤ done.length) →
      read_positions_loop rest (done.length : Int) (c : Int) positions ≠
          Except.error ReadError.store_out_of_bounds ∧
      (∀ r, read_positions_loop rest (done.length : Int) (c : Int) positions = Except.ok r →
        r.count = ((done ++ rest).length : Int) ∧
        r.positions.take (done ++ rest).length = done ++ rest ∧
        (r.positions.length : Int) = r.capacity ∧
        r.count < r.capacity ∧
        ∃ k1 : Nat, r.capacity = ((1000 * 2 ^ k1 : Nat) : Int) ∧
          (k1 = 0 ∨ ((1000 * 2 ^ (k1 - 1) : Nat) : Int) ≤ r.count)) ∧
      (done.length + rest.length < 262144000 →
        ∃ r, read_positions_loop rest (done.length : Int) (c : Int) positions =
          Except.ok r) := by
  intro rest
  induction rest with
  | nil =>
    intro done c k positions hlen htake hc hlt hmax hk
    refine ⟨by simp [read_positions_loop], ?_, ?_⟩
    · intro r hr
      simp only [read_positions_loop, Except.ok.injEq] at hr
      subst hr
      refine ⟨by simp, by simpa using htake, by simp [hlen], by simp; omega, k, ?_, ?_⟩
      · simp [hc]
      · rcases hk with h | h
        · exact Or.inl h
        · right
          simp only
          exact_mod_cast h
    · intro _
      exact ⟨_, rfl⟩
  | cons value rest ih =>
    intro done c k positions hlen htake hc hlt hmax hk
    have hw : wrapInt32 ((done.length : Int) + 1) = ((done.length + 1 : Nat) : Int) := by
      have := wrapInt32_of_small (done.length + 1) (by omega)
      simpa using this
    have htn : (done.length : Int).toNat = done.length := by simp
    have hlt2 : done.length < positions.length := by omega
    have hnn : (0 : Int) ≤ (done.length : Int) := by omega
    have hdone1 : (done ++ [value]).length = done.length + 1 := by simp
    have hset_len : (positions.set done.length value).length = c := by simp [hlen]
    have hset_take : (positions.set done.length value).take (done.length + 1) =
        done ++ [value] := by
      rw [take_succ_set_eq positions done.length value (by omega), htake]
    have happ : done ++ value :: rest = (done ++ [value]) ++ rest := by simp
    by_cases hfull : done.length + 1 = c
    · have hge : ((done.length + 1 : Nat) : Int) ≥ (c : Int) := by omega
      have hw2 : wrapInt32 ((c : Int) * 2) = ((2 * c : Nat) : Int) := by
        have e : (c : Int) * 2 = ((2 * c : Nat) : Int) := by push_cast; ring
        rw [e]
        exact wrapInt32_of_small (2 * c) (by omega)
      have hreq : allocRequest ((2 * c : Nat) : Int) = 4 * (2 * c) :=
        allocRequest_of_small (2 * c) (by omega)
      by_cases hfit : 4 * (2 * c) ≤ MaxAllocSize
      · have hpos2 : (positions.set done.length value).take (4 * (2 * c) / 4) ++
            List.replicate (4 * (2 * c) / 4 - (positions.set done.length value).length) 0 =
            positions.set done.length value ++ List.replicate c 0 := by
          have e1 : 4 * (2 * c) / 4 = 2 * c := by omega
          have e2 : 2 * c - c = c := by omega
          rw [e1, hset_len, List.take_of_length_le (by rw [hset_len]; omega), e2]
        have hstep : read_positions_loop (value :: rest) (done.length : Int) (c : Int)
            positions =
            read_positions_loop rest ((done ++ [value]).length : Int) ((2 * c : Nat) : Int)
              (positions.set done.length value ++ List.replicate c 0) := by
          simp only [read_positions_loop, hnn, hlt2, and_self, if_true, hw, htn, hge, hw2,
            hreq, hfit, hpos2, hdone1]
        have hih := ih (done ++ [value]) (2 * c) (k + 1)
          (positions.set done.length value ++ List.replicate c 0)
          (by simp [hlen]; omega)
          (by
            rw [hdone1, List.take_append_of_le_length (by rw [hset_len]; omega), hset_take])
          (by rw [hc]; ring)
          (by rw [hdone1]; omega)
          (by unfold MaxAllocSize at hfit; omega)
          (by right; simp only [Nat.add_sub_cancel, hdone1]; omega)
        rw [hstep, happ]
        refine ⟨hih.1, hih.2.1, ?_⟩
        intro hsmall
        apply hih.2.2
        simp only [hdone1]
        simp only [List.length_cons] at hsmall
        omega
      · have hstep : read_positions_loop (value :: rest) (done.length : Int) (c : Int)
            positions = Except.error ReadError.invalid_alloc_request := by
          simp only [read_positions_loop, hnn, hlt2, and_self, if_true, hw, htn, hge, hw2,
            hreq, hfit, if_false]
        rw [hstep]
        refine ⟨by simp, by intro r hr; simp at hr, ?_⟩
        intro hsmall
        exfalso
        have hbig : 134217728 ≤ 1000 * 2 ^ k := by
          unfold MaxAllocSize at hfit
          omega
        have := capacity_pow_bound k hbig
        simp only [List.length_cons] at hsmall
        omega
    · have hnge : ¬ (((done.length + 1 : Nat) : Int) ≥ (c : Int)) := by omega
      have hstep : read_positions_loop (value :: rest) (done.length : Int) (c : Int)
          positions =
          read_positions_loop rest ((done ++ [value]).length : Int) (c : Int)
            (positions.set done.length value) := by
        simp only [read_positions_loop, hnn, hlt2, and_self, if_true, hw, htn, hnge, if_false,
          hdone1]
      have hih := ih (done ++ [value]) c k (positions.set done.length value)
        hset_len (by rw [hdone1, hset_take]) hc (by rw [hdone1]; omega) hmax
        (by rcases hk with h | h
            · exact Or.inl h
            · right; rw [hdone1]; omega)
      rw [hstep, happ]
      refine ⟨hih.1, hih.2.1, ?_⟩
      intro hsmall
      apply hih.2.2
      simp only [hdone1]
      simp only [List.length_cons] at hsmall
      omega

/-- C20: `read_positions` never stores outside its array. For every file that can be
opened, no store through `positions[*count]` falls outside the allocated array;
whenever the routine returns, `*count` is the number of integers parsed,
`positions[0 .. *count)` holds them in file order, the array has as many elements as
the capacity, `*count` is below the capacity, and the capacity is 1000 doubled `k`
times, with `k = 0` or the count having reached the previous capacity; and it does
return for every file of fewer than 262144000 integers (from there on the host
refuses the doubled allocation). -/
theorem read_positions_in_bounds (values : List Int) :
    read_positions (some values) ≠ Except.error ReadError.store_out_of_bounds ∧
    (∀ r, read_positions (some values) = Except.ok r →
      r.count = (values.length : Int) ∧
      r.positions.take values.length = values ∧
      (r.positions.length : Int) = r.capacity ∧
      r.count < r.capacity ∧
      ∃ k : Nat, r.capacity = ((1000 * 2 ^ k : Nat) : Int) ∧
        (k = 0 ∨ ((1000 * 2 ^ (k - 1) : Nat) : Int) ≤ r.count)) ∧
    (values.length < 262144000 → ∃ r, read_positions (some values) = Except.ok r) := by
  have hreq : allocRequest (1000 : Int) / 4 = 1000 := by
    have := allocRequest_of_small 1000 (by decide)
    simp only [Nat.cast_ofNat] at this
    rw [this]
  have h := read_positions_loop_inv values [] 1000 0 (List.replicate 1000 0)
    (List.length_replicate _ _) rfl (by norm_num) (by norm_num) (by norm_num) (Or.inl rfl)
  simp only [List.length_nil, List.nil_append, Nat.cast_zero, Nat.cast_ofNat, Nat.zero_add] at h
  simp only [read_positions, hreq]
  exact h

/-- C20 (witness): a file holding 5, 7 and -3. -/
theorem read_positions_in_bounds_witness :
    read_positions (some [5, 7, -3]) ≠ Except.error ReadError.store_out_of_bounds ∧
    (∃ r, read_positions (some [5, 7, -3]) = Except.ok r ∧ r.count = 3 ∧
      r.positions.take 3 = [5, 7, -3] ∧ r.count < r.capacity) :=
  ⟨(read_positions_in_bounds [5, 7, -3]).1,
    Exists.elim ((read_positions_in_bounds [5, 7, -3]).2.2 (by norm_num))
      (fun r hr =>
        ⟨r, hr, ((read_positions_in_bounds [5, 7, -3]).2.1 r hr).1,
          ((read_positions_in_bounds [5, 7, -3]).2.1 r hr).2.1,
          ((read_positions_in_bounds [5, 7, -3]).2.1 r hr).2.2.2.1⟩)⟩

theorem joinWithSpaces_cons (g : List Char) (gs : List (List Char)) :
    joinWithSpaces (g :: gs) = g ++ spacedGroups gs := by
  induction gs generalizing g with
  | nil => simp [joinWithSpaces, spacedGroups]
  | cons h rest ih =>
    simp only [joinWithSpaces, spacedGroups]
    rw [ih h]
    simp

theorem bitGroups_length (word : Nat) : ∀ m, (bitGroups word m).length = m := by
  intro m
  induction m with
  | zero => rfl
  | succ m ih => simp [bitGroups, ih]

theorem spacedGroups_bitGroups_length (word : Nat) :
    ∀ m, (spacedGroups (bitGroups word m)).length = 5 * m := by
  intro m
  induction m with
  | zero => rfl
  | succ m ih =>
    simp only [bitGroups, spacedGroups, List.length_cons, List.length_append, ih, bitGroup,
      List.length_nil]
    omega

theorem flatten_bitGroups_length (word : Nat) :
    ∀ m, (bitGroups word m).flatten.length = 4 * m := by
  intro m
  induction m with
  | zero => rfl
  | succ m ih =>
    simp only [bitGroups, List.flatten_cons, List.length_append, ih, bitGroup, List.length_cons,
      List.length_nil]
    omega

theorem bufferPut_ok (capacity : Nat) (written : List Char) (c : Char)
    (h : written.length < capacity) :
    bufferPut capacity written c = Except.ok (written ++ [c]) := by
  simp [bufferPut, h]

theorem word_to_binary_loop_group (W word capacity m : Nat) (written : List Char)
    (hW : 0 < W) (hcap : written.length + 5 ≤ capacity) :
    word_to_binary_loop W word capacity (4 * (m + 1)) written =
      word_to_binary_loop W word capacity (4 * m)
        (written ++ (if 4 * (m + 1) = W then [] else [' ']) ++ bitGroup word m) := by
  have e : 4 * (m + 1) = 4 * m + 3 + 1 := by omega
  rw [e]
  have c3 : (4 * m + 3 + 1) % 4 = 0 := by omega
  have c2 : ¬ ((4 * m + 2 + 1) % 4 = 0) := by omega
  have c1 : ¬ ((4 * m + 1 + 1) % 4 = 0) := by omega
  have c0 : ¬ ((4 * m + 1) % 4 = 0) := by omega
  by_cases htop : 4 * m + 3 + 1 = W
  · have hne : ¬ (4 * m + 3 ≠ W - 1 ∧ (4 * m + 3 + 1) % 4 = 0) := by
      intro h
      exact h.1 (by omega)
    rw [if_pos htop]
    simp only [word_to_binary_loop, hne, if_false, c2, c1, c0, and_false, bind, Except.bind,
      pure, Except.pure, List.append_nil]
    rw [bufferPut_ok _ _ _ (by omega)]
    simp only
    rw [bufferPut_ok _ _ _ (by simp; omega)]
    simp only
    rw [bufferPut_ok _ _ _ (by simp; omega)]
    simp only
    rw [bufferPut_ok _ _ _ (by simp; omega)]
    simp [bitGroup, bitChar]
  · have hcond : 4 * m + 3 ≠ W - 1 ∧ (4 * m + 3 + 1) % 4 = 0 := ⟨by omega, c3⟩
    rw [if_neg htop]
    simp only [word_to_binary_loop, ne_eq, hcond, not_false_eq_true, and_self, if_true, c2, c1,
      c0, and_false, if_false, bind, Except.bind, pure, Except.pure]
    rw [bufferPut_ok _ _ _ (by omega)]
    simp only
    rw [bufferPut_ok _ _ _ (by simp; omega)]
    simp only
    rw [bufferPut_ok _ _ _ (by simp; omega)]
    simp only
    rw [bufferPut_ok _ _ _ (by simp; omega)]
    simp only
    rw [bufferPut_ok _ _ _ (by simp; omega)]
    simp [bitGroup, bitChar]

theorem word_to_binary_loop_lower (W word capacity : Nat) (hW : 0 < W) :
    ∀ (m : Nat) (written : List Char), 4 * m < W → written.length + 5 * m ≤ capacity →
      word_to_binary_loop W word capacity (4 * m) written =
        Except.ok (written ++ spacedGroups (bitGroups word m)) := by
  intro m
  induction m with
  | zero =>
    intro written _ _
    simp [word_to_binary_loop, bitGroups, spacedGroups]
  | succ m ih =>
    intro written hlt hcap
    have hne : ¬ (4 * (m + 1) = W) := by omega
    rw [word_to_binary_loop_group W word capacity m written hW (by omega), if_neg hne,
      ih _ (by omega) (by simp [bitGroup]; omega)]
    simp [bitGroups, spacedGroups]

theorem word_to_binary_eq (M word : Nat) :
    word_to_binary (4 * (M + 1)) word =
      Except.ok (joinWithSpaces (bitGroups word (M + 1))) := by
  have hloop : word_to_binary_loop (4 * (M + 1)) word
      (4 * (M + 1) + 1 + 4 * (M + 1) / 4) (4 * (M + 1)) [] =
      Except.ok (bitGroup word M ++ spacedGroups (bitGroups word M)) := by
    rw [word_to_binary_loop_group (4 * (M + 1)) word _ M [] (by omega) (by simp; omega),
      if_pos rfl,
      word_to_binary_loop_lower (4 * (M + 1)) word _ (by omega) M _ (by omega)
        (by simp [bitGroup]; omega)]
    simp
  have hlen : (bitGroup word M ++ spacedGroups (bitGroups word M)).length <
      4 * (M + 1) + 1 + 4 * (M + 1) / 4 := by
    simp only [List.length_append, spacedGroups_bitGroups_length, bitGroup, List.length_cons,
      List.length_nil]
    omega
  unfold word_to_binary
  simp only [hloop, bind, Except.bind, pure, Except.pure, bufferPut_ok _ _ _ hlen]
  rw [bitGroups, joinWithSpaces_cons]

theorem bitChar_digit (word i : Nat) :
    (if bitChar word i = '1' then 1 else 0) = word / 2 ^ i % 2 := by
  have h : (word >>> i) &&& 1 = word / 2 ^ i % 2 := by
    rw [Nat.shiftRight_eq_div_pow, Nat.and_one_is_mod]
  unfold bitChar
  rw [h]
  have h2 : word / 2 ^ i % 2 = 0 ∨ word / 2 ^ i % 2 = 1 := by omega
  rcases h2 with h0 | h1
  · simp [h0]
  · simp [h1]

theorem bitChar_is_digit (word i : Nat) : bitChar word i = '0' ∨ bitChar word i = '1' := by
  unfold bitChar
  split
  · exact Or.inr rfl
  · exact Or.inl rfl

theorem foldl_binary_append (digits : List Char) :
    ∀ v : Nat, digits.foldl (fun v c => 2 * v + (if c = '1' then 1 else 0)) v =
      v * 2 ^ digits.length + binaryValue digits := by
  induction digits with
  | nil => intro v; simp [binaryValue]
  | cons c rest ih =>
    intro v
    simp only [List.foldl_cons, binaryValue, List.length_cons]
    rw [ih (2 * v + (if c = '1' then 1 else 0)), ih (2 * 0 + (if c = '1' then 1 else 0))]
    ring

theorem binaryValue_append (a b : List Char) :
    binaryValue (a ++ b) = binaryValue a * 2 ^ b.length + binaryValue b := by
  unfold binaryValue
  rw [List.foldl_append, foldl_binary_append b]
  rfl

theorem binaryValue_bitGroup (word m : Nat) :
    binaryValue (bitGroup word m) = word / 2 ^ (4 * m) % 16 := by
  have d3 := bitChar_digit word (4 * m + 3)
  have d2 := bitChar_digit word (4 * m + 2)
  have d1 := bitChar_digit word (4 * m + 1)
  have d0 := bitChar_digit word (4 * m)
  have e3 : word / 2 ^ (4 * m + 3) = word / 2 ^ (4 * m) / 8 := by
    rw [pow_add, Nat.div_div_eq_div_mul]
    norm_num
  have e2 : word / 2 ^ (4 * m + 2) = word / 2 ^ (4 * m) / 4 := by
    rw [pow_add, Nat.div_div_eq_div_mul]
    norm_num
  have e1 : word / 2 ^ (4 * m + 1) = word / 2 ^ (4 * m) / 2 := by
    rw [pow_add, Nat.div_div_eq_div_mul]
    norm_num
  rw [e3] at d3
  rw [e2] at d2
  rw [e1] at d1
  simp only [binaryValue, bitGroup, List.foldl_cons, List.foldl_nil, d3, d2, d1, d0]
  omega

theorem binaryValue_bitGroups (word : Nat) :
    ∀ m, binaryValue (bitGroups word m).flatten = word % 2 ^ (4 * m) := by
  intro m
  induction m with
  | zero => simp [bitGroups, binaryValue, Nat.mod_one]
  | succ m ih =>
    simp only [bitGroups, List.flatten_cons]
    rw [binaryValue_append, flatten_bitGroups_length, ih, binaryValue_bitGroup]
    have e : 2 ^ (4 * (m + 1)) = 2 ^ (4 * m) * 16 := by
      rw [Nat.mul_add, pow_add]
      norm_num
    rw [e, Nat.mod_mul]
    ring

theorem bitChar_ne_space (word i : Nat) : (bitChar word i != ' ') = true := by
  rcases bitChar_is_digit word i with h | h <;> rw [h] <;> decide

theorem filter_bitGroup (word m : Nat) :
    (bitGroup word m).filter (fun c => c != ' ') = bitGroup word m := by
  simp [bitGroup, bitChar_ne_space]

theorem filter_spacedGroups_bitGroups (word : Nat) :
    ∀ m, (spacedGroups (bitGroups word m)).filter (fun c => c != ' ') =
      (bitGroups word m).flatten := by
  intro m
  induction m with
  | zero => rfl
  | succ m ih =>
    simp only [bitGroups, spacedGroups, List.flatten_cons]
    rw [List.cons_append, List.filter_cons, List.filter_append, filter_bitGroup, ih]
    simp

theorem mem_bitGroups (word : Nat) :
    ∀ m g, g ∈ bitGroups word m → ∃ k, g = bitGroup word k := by
  intro m
  induction m with
  | zero => intro g h; simp [bitGroups] at h
  | succ m ih =>
    intro g h
    simp only [bitGroups, List.mem_cons] at h
    rcases h with h | h
    · exact ⟨m, h⟩
    · exact ih g h

/-- C21: for every word size `W` that is a positive multiple of 4 and every word below
`2 ^ W`, `word_to_binary` returns (without ever writing outside its buffer) `W / 4`
groups of four binary digits joined with exactly one space between consecutive groups
and none at either end; removing the spaces leaves the `W` digits, which read as a
binary number, most significant digit first, give back the word; the string has
`W + W / 4 - 1` characters, which with the terminator fit the buffer of
`W + 1 + W / 4` bytes. -/
theorem word_to_binary_groups (W word : Nat) (hpos : 0 < W) (h4 : W % 4 = 0)
    (hword : word < 2 ^ W) :
    ∃ groups : List (List Char),
      word_to_binary W word = Except.ok (joinWithSpaces groups) ∧
      groups.length = W / 4 ∧
      (∀ g ∈ groups, g.length = 4 ∧ ∀ c ∈ g, c = '0' ∨ c = '1') ∧
      (joinWithSpaces groups).filter (fun c => c != ' ') = groups.flatten ∧
      groups.flatten.length = W ∧
      binaryValue groups.flatten = word ∧
      (joinWithSpaces groups).length = W + W / 4 - 1 ∧
      (joinWithSpaces groups).length + 1 ≤ W + 1 + W / 4 := by
  obtain ⟨M, rfl⟩ : ∃ M, W = 4 * (M + 1) := ⟨W / 4 - 1, by omega⟩
  have hjoin : joinWithSpaces (bitGroups word (M + 1)) =
      bitGroup word M ++ spacedGroups (bitGroups word M) := by
    rw [bitGroups, joinWithSpaces_cons]
  have hlen : (joinWithSpaces (bitGroups word (M + 1))).length = 5 * M + 4 := by
    rw [hjoin]
    simp only [List.length_append, spacedGroups_bitGroups_length, bitGroup, List.length_cons,
      List.length_nil]
    omega
  refine ⟨bitGroups word (M + 1), word_to_binary_eq M word, ?_, ?_, ?_, ?_, ?_, ?_, ?_⟩
  · rw [bitGroups_length]
    omega
  · intro g hg
    obtain ⟨k, rfl⟩ := mem_bitGroups word (M + 1) g hg
    refine ⟨rfl, ?_⟩
    intro c hc
    simp only [bitGroup, List.mem_cons, List.mem_singleton, List.not_mem_nil, or_false] at hc
    rcases hc with h | h | h | h <;> rw [h] <;> exact bitChar_is_digit _ _
  · rw [hjoin, List.filter_append, filter_bitGroup, filter_spacedGroups_bitGroups]
    simp [bitGroups]
  · rw [flatten_bitGroups_length]
  · rw [binaryValue_bitGroups]
    exact Nat.mod_eq_of_lt hword
  · rw [hlen]
    omega
  · rw [hlen]
    omega

/-- C21 (witness): the 16-bit word 42481 (hexadecimal A5F1) is written as
"1010 0101 1111 0001". -/
theorem word_to_binary_groups_witness :
    word_to_binary 16 42481 = Except.ok "1010 0101 1111 0001".toList ∧
    ∃ groups : List (List Char),
      word_to_binary 16 42481 = Except.ok (joinWithSpaces groups) ∧
      groups.length = 16 / 4 ∧
      (∀ g ∈ groups, g.length = 4 ∧ ∀ c ∈ g, c = '0' ∨ c = '1') ∧
      (joinWithSpaces groups).filter (fun c => c != ' ') = groups.flatten ∧
      groups.flatten.length = 16 ∧
      binaryValue groups.flatten = 42481 ∧
      (joinWithSpaces groups).length = 16 + 16 / 4 - 1 ∧
      (joinWithSpaces groups).length + 1 ≤ 16 + 1 + 16 / 4 :=
  ⟨by rfl, word_to_binary_groups 16 42481 (by decide) (by decide) (by norm_num)⟩

end Bitmap
